import Mathlib

/-!
Verification development for the iOS test-automator repository.

This file gives a shallow embedding, in Lean 4, of the extraction /
retrieval core of the repository (`python-rag/ios_rag_mvp.py`,
`python-backend/utils.py`, `python-backend/agents/test_generator.py`,
`python-backend/main.py`) and proves or refutes the frozen claims about it.

Modelling conventions:
* Python strings are Lean `String`s; most scanning works over `List Char`
  (`String.data`).  Python slicing `s[a:b]`, which is by code point and
  clamping, is `(List.take b).drop a`.
* The regexes of the source are hand-compiled to executable scanners over
  `List Char`.  Python's `\s`, `\w` and `str.strip()` are modelled with
  their ASCII meaning (the source only processes Swift source text).
  Backtracking of the concrete patterns is resolved deterministically;
  each scanner is documented next to the regex it embeds.
* `hashlib.sha1(...).hexdigest()` is implemented bit-for-bit after
  FIPS 180-4 over the UTF-8 bytes of the input.
* The external vector store, the filesystem walk and the LLM call are
  boundaries of the model: ingestion takes the discovered
  `(relative path, file text)` list as input, and the query path takes
  the store's answer (`Except` for the raised-exception case) as input.
* Machine integers do not occur; all arithmetic is `Nat`/`Int` with
  explicit `% 2^32` inside SHA-1.
-/

/-- Python `\s` / `str.strip()` whitespace, restricted to ASCII:
space, tab, newline, carriage return, vertical tab, form feed. -/
def isPyWs (c : Char) : Bool :=
  c = ' ' || c = '\t' || c = '\n' || c = '\r' || c = '\x0b' || c = '\x0c'

/-- Python `\w` word character, restricted to ASCII: `[A-Za-z0-9_]`. -/
def isWordChar (c : Char) : Bool :=
  c.isAlphanum || c = '_'

/-- Python `str.strip()` on a character list. -/
def pyStripList (cs : List Char) : List Char :=
  ((cs.dropWhile isPyWs).reverse.dropWhile isPyWs).reverse

/-- Python `str.strip()`. -/
def py_strip (s : String) : String :=
  (pyStripList s.data).asString

/-- Python `s[a:b]` (0 ≤ a ≤ b case; both ends clamp to the length). -/
def pySlice (cs : List Char) (a b : Nat) : List Char :=
  (cs.take b).drop a

/-- Python `s[:n]` on a `String`. -/
def pyTake (s : String) (n : Nat) : String :=
  (s.data.take n).asString

/-- Python `str.find(c, start)` returning `none` for `-1`. -/
def findCharFrom (cs : List Char) (c : Char) (start : Nat) : Option Nat :=
  match (cs.drop start).findIdx? (· = c) with
  | some k => some (start + k)
  | none => none

/-- Drop the literal word `w` from the front of `s`, or fail.
Embeds matching a literal fragment of a regex. -/
def dropLit : List Char → List Char → Option (List Char)
  | [], s => some s
  | _, [] => none
  | w :: ws, c :: cs => if c = w then dropLit ws cs else none

/-!  ## `find_matching_brace` (ios_rag_mvp.py lines 146-162)  -/

/-- Loop body of `find_matching_brace`: scan the suffix, tracking the brace
depth (an `Int`, as Python's `depth` may in principle go negative) and the
absolute index; answer the index of the `}` at which the depth returns to
zero, or `none` if that never happens. -/
def fmbAux : List Char → Int → Nat → Option Nat
  | [], _, _ => none
  | c :: cs, depth, i =>
    if c = '\x7b' then fmbAux cs (depth + 1) (i + 1)
    else if c = '\x7d' then
      (if depth - 1 = 0 then some i else fmbAux cs (depth - 1) (i + 1))
    else fmbAux cs depth (i + 1)

/-- `find_matching_brace(text, open_index)`: the Python loop runs `i` from
`open_index` and returns `i` when the depth hits zero at a `}`; if it never
does, the function returns `n - 1` (end of text). -/
def find_matching_brace (text : List Char) (open_index : Nat) : Nat :=
  match fmbAux (text.drop open_index) 0 open_index with
  | some j => j
  | none => text.length - 1

/-- Signed brace count of a character list starting from depth `d`:
`+1` per `{`, `-1` per `}`. -/
def braceDeltaFrom (d : Int) (cs : List Char) : Int :=
  cs.foldl (fun a c => if c = '\x7b' then a + 1 else if c = '\x7d' then a - 1 else a) d

/-- The closing position `k` (relative to the scanned suffix `cs`, whose scan
starts at depth `d`): the character is `}` and the depth after it is zero. -/
def IsClose (cs : List Char) (d : Int) (k : Nat) : Prop :=
  cs.get? k = some '\x7d' ∧ braceDeltaFrom d (cs.take (k + 1)) = 0

instance (cs : List Char) (d : Int) (k : Nat) : Decidable (IsClose cs d k) := by
  unfold IsClose; infer_instance

theorem braceDeltaFrom_cons (d : Int) (c : Char) (cs : List Char) :
    braceDeltaFrom d (c :: cs)
      = braceDeltaFrom (if c = '\x7b' then d + 1 else if c = '\x7d' then d - 1 else d) cs := by
  simp [braceDeltaFrom, List.foldl_cons]

/-- Soundness and minimality of the brace scan: if it answers `some (i + k)`
then `k` is the least close position. -/
theorem fmbAux_some_iff (cs : List Char) (d : Int) (i : Nat) (j : Nat) :
    fmbAux cs d i = some j ↔
      ∃ k, j = i + k ∧ IsClose cs d k ∧ ∀ m < k, ¬ IsClose cs d m := by
  induction cs generalizing d i j with
  | nil =>
    simp [fmbAux, IsClose]
  | cons c cs ih =>
    by_cases hb : c = '\x7b'
    · subst hb
      rw [show fmbAux ('\x7b' :: cs) d i = fmbAux cs (d + 1) (i + 1) from rfl, ih]
      constructor
      · rintro ⟨k, rfl, hk, hmin⟩
        refine ⟨k + 1, by omega, ?_, ?_⟩
        · obtain ⟨h1, h2⟩ := hk
          refine ⟨by simpa using h1, ?_⟩
          rw [List.take_succ_cons, braceDeltaFrom_cons]
          simpa using h2
        · intro m hm
          cases m with
          | zero => rintro ⟨h1, -⟩; simp at h1
          | succ m =>
            have := hmin m (by omega)
            rintro ⟨h1, h2⟩
            exact this ⟨by simpa using h1, by
              rw [List.take_succ_cons, braceDeltaFrom_cons] at h2
              simpa using h2⟩
      · rintro ⟨k, hj, hk, hmin⟩
        cases k with
        | zero => obtain ⟨h1, -⟩ := hk; simp at h1
        | succ k =>
          refine ⟨k, by omega, ⟨by simpa using hk.1, ?_⟩, ?_⟩
          · have h2 := hk.2
            rw [List.take_succ_cons, braceDeltaFrom_cons] at h2
            simpa using h2
          · intro m hm hcm
            exact hmin (m + 1) (by omega)
              ⟨by simpa using hcm.1, by
                rw [List.take_succ_cons, braceDeltaFrom_cons]
                simpa using hcm.2⟩
    · by_cases hc : c = '\x7d'
      · subst hc
        by_cases hd : d - 1 = 0
        · rw [show fmbAux ('\x7d' :: cs) d i = some i from by simp [fmbAux, hb, hd]]
          constructor
          · rintro h
            injection h with h2
            subst h2
            refine ⟨0, by omega, ⟨rfl, ?_⟩, by omega⟩
            rw [List.take_succ_cons, List.take_zero, braceDeltaFrom_cons]
            simp only [braceDeltaFrom, List.foldl_nil]
            simp [hd]
          · rintro ⟨k, hj, hk, hmin⟩
            cases k with
            | zero => simp at hj; subst hj; rfl
            | succ k =>
              exfalso
              exact hmin 0 (by omega) ⟨rfl, by
                rw [List.take_succ_cons, List.take_zero, braceDeltaFrom_cons]
                simp only [braceDeltaFrom, List.foldl_nil]
                simp [hd]⟩
        · rw [show fmbAux ('\x7d' :: cs) d i = fmbAux cs (d - 1) (i + 1) from by
            simp [fmbAux, hb, hd], ih]
          constructor
          · rintro ⟨k, rfl, hk, hmin⟩
            refine ⟨k + 1, by omega, ⟨by simpa using hk.1, by
              rw [List.take_succ_cons, braceDeltaFrom_cons]
              simpa using hk.2⟩, ?_⟩
            intro m hm
            cases m with
            | zero =>
              rintro ⟨-, h2⟩
              rw [List.take_succ_cons, List.take_zero, braceDeltaFrom_cons] at h2
              simp only [braceDeltaFrom, List.foldl_nil] at h2
              simp at h2
              omega
            | succ m =>
              rintro ⟨h1, h2⟩
              exact hmin m (by omega) ⟨by simpa using h1, by
                rw [List.take_succ_cons, braceDeltaFrom_cons] at h2
                simpa using h2⟩
          · rintro ⟨k, hj, hk, hmin⟩
            cases k with
            | zero =>
              exfalso
              have h2 := hk.2
              rw [List.take_succ_cons, List.take_zero, braceDeltaFrom_cons] at h2
              simp only [braceDeltaFrom, List.foldl_nil] at h2
              simp at h2
              omega
            | succ k =>
              refine ⟨k, by omega, ⟨by simpa using hk.1, by
                have h2 := hk.2
                rw [List.take_succ_cons, braceDeltaFrom_cons] at h2
                simpa using h2⟩, ?_⟩
              intro m hm hcm
              exact hmin (m + 1) (by omega) ⟨by simpa using hcm.1, by
                rw [List.take_succ_cons, braceDeltaFrom_cons]
                simpa using hcm.2⟩
      · rw [show fmbAux (c :: cs) d i = fmbAux cs d (i + 1) from by simp [fmbAux, hb, hc], ih]
        constructor
        · rintro ⟨k, rfl, hk, hmin⟩
          refine ⟨k + 1, by omega, ⟨by simpa using hk.1, by
            rw [List.take_succ_cons, braceDeltaFrom_cons]
            simp only [hb, hc, if_false]
            simpa using hk.2⟩, ?_⟩
          intro m hm
          cases m with
          | zero => rintro ⟨h1, -⟩; simp at h1; exact hc h1
          | succ m =>
            rintro ⟨h1, h2⟩
            exact hmin m (by omega) ⟨by simpa using h1, by
              rw [List.take_succ_cons, braceDeltaFrom_cons] at h2
              simp only [hb, hc, if_false] at h2
              simpa using h2⟩
        · rintro ⟨k, hj, hk, hmin⟩
          cases k with
          | zero => exact absurd hk.1 (by simp; intro h; exact hc h)
          | succ k =>
            refine ⟨k, by omega, ⟨by simpa using hk.1, by
              have h2 := hk.2
              rw [List.take_succ_cons, braceDeltaFrom_cons] at h2
              simp only [hb, hc, if_false] at h2
              simpa using h2⟩, ?_⟩
            intro m hm hcm
            exact hmin (m + 1) (by omega) ⟨by simpa using hcm.1, by
              rw [List.take_succ_cons, braceDeltaFrom_cons]
              simp only [hb, hc, if_false]
              simpa using hcm.2⟩

theorem fmbAux_none_iff (cs : List Char) (d : Int) (i : Nat) :
    fmbAux cs d i = none ↔ ∀ k, ¬ IsClose cs d k := by
  constructor
  · intro hn k hk
    have hex : ∃ k, IsClose cs d k := ⟨k, hk⟩
    have h0 : IsClose cs d (Nat.find hex) := Nat.find_spec hex
    have hmin : ∀ m < Nat.find hex, ¬ IsClose cs d m := fun m hm => Nat.find_min hex hm
    have hsome : fmbAux cs d i = some (i + Nat.find hex) :=
      (fmbAux_some_iff cs d i _).2 ⟨Nat.find hex, rfl, h0, hmin⟩
    rw [hn] at hsome
    cases hsome
  · intro h
    cases hr : fmbAux cs d i with
    | none => rfl
    | some j =>
      obtain ⟨k, -, hk, -⟩ := (fmbAux_some_iff cs d i j).1 hr
      exact absurd hk (h k)

/-!  ## JSON values and `safe_json` (ios_rag_mvp.py lines 164-165)

Python metadata dicts and the card/audit records are modelled as ordered
association structures (`JVal.obj`), since `json.dumps` without `sort_keys`
serializes keys in insertion order.  `safe_json` embeds
`json.dumps(obj, ensure_ascii=False, separators=(",", ":"))`.
-/

/-- A JSON-serializable Python value as used by the source: strings, ints,
bools, lists and (insertion-ordered) dicts. -/
inductive JVal where
  | str : String → JVal
  | int : Int → JVal
  | bool : Bool → JVal
  | arr : List JVal → JVal
  | obj : List (String × JVal) → JVal

/-- Hex digit characters, lowercase (as produced by `json.dumps` escapes and
by `hexdigest`). -/
def hexDigit (n : Nat) : Char :=
  if n = 0 then '0' else if n = 1 then '1' else if n = 2 then '2'
  else if n = 3 then '3' else if n = 4 then '4' else if n = 5 then '5'
  else if n = 6 then '6' else if n = 7 then '7' else if n = 8 then '8'
  else if n = 9 then '9' else if n = 10 then 'a' else if n = 11 then 'b'
  else if n = 12 then 'c' else if n = 13 then 'd' else if n = 14 then 'e'
  else 'f'

/-- Fixed-width big-endian hex rendering of a natural number. -/
def natToHex : Nat → Nat → List Char
  | 0, _ => []
  | w + 1, n => natToHex w (n / 16) ++ [hexDigit (n % 16)]

/-- `json.dumps` escaping of one character (`ensure_ascii=False`): the two
mandatory escapes, the C0 shorthands, and `\uXXXX` for other controls. -/
def jsonEscapeChar (c : Char) : String :=
  if c = '"' then "\\\""
  else if c = '\\' then "\\\\"
  else if c = '\n' then "\\n"
  else if c = '\t' then "\\t"
  else if c = '\r' then "\\r"
  else if c = '\x08' then "\\b"
  else if c = '\x0c' then "\\f"
  else if c.toNat < 32 then "\\u" ++ (natToHex 4 c.toNat).asString
  else String.singleton c

/-- A JSON string literal. -/
def jsonStr (s : String) : String :=
  "\"" ++ String.join (s.data.map jsonEscapeChar) ++ "\""

/-- `safe_json` with explicit structural fuel (the nesting depth of every
value the embedded program builds is at most 4, so a constant fuel of 8
never runs out on them). -/
def safeJsonF : Nat → JVal → String
  | _ + 1, .str s => jsonStr s
  | _ + 1, .int n => toString n
  | _ + 1, .bool b => cond b "true" "false"
  | fuel + 1, .arr xs =>
    "[" ++ String.intercalate "," (xs.map (safeJsonF fuel)) ++ "]"
  | fuel + 1, .obj fs =>
    "\x7b" ++ String.intercalate ","
      (fs.map (fun kv => jsonStr kv.1 ++ ":" ++ safeJsonF fuel kv.2)) ++ "\x7d"
  | 0, _ => ""

/-- `safe_json(obj)` = `json.dumps(obj, ensure_ascii=False, separators=(",", ":"))`
for every value of nesting depth at most 8 (all values the program builds
have depth at most 4). -/
def safe_json (v : JVal) : String :=
  safeJsonF 8 v

/-- Python `dict.get(k)` on an insertion-ordered metadata dict. -/
def metaGet (m : List (String × JVal)) (k : String) : Option JVal :=
  List.lookup k m

/-- `meta.get(k) == lit` for a string literal `lit` (Python `==` between the
looked-up value and a `str`). -/
def metaIsStr (m : List (String × JVal)) (k : String) (lit : String) : Bool :=
  match metaGet m k with
  | some (.str v) => v = lit
  | _ => false

/-- Python `str(meta.get(k))` for the scalar values the pipeline stores
(`str(None)` is `"None"`; lists/dicts never occur in the consulted fields,
and are mapped to `""`). -/
def metaPyStr (m : List (String × JVal)) (k : String) : String :=
  match metaGet m k with
  | none => "None"
  | some (.str v) => v
  | some (.int n) => toString n
  | some (.bool b) => cond b "True" "False"
  | some (.arr _) => ""
  | some (.obj _) => ""

/-!  ## `sha1` (ios_rag_mvp.py lines 123-124)

`hashlib.sha1(s.encode("utf-8", errors="ignore")).hexdigest()`, implemented
after FIPS 180-4 on `Nat` with explicit reduction mod `2^32`.
-/

/-- UTF-8 encoding of one unicode scalar value, as a byte list. -/
def utf8Bytes (c : Char) : List Nat :=
  let n := c.toNat
  if n < 128 then [n]
  else if n < 2048 then [192 + n / 64, 128 + n % 64]
  else if n < 65536 then [224 + n / 4096, 128 + (n / 64) % 64, 128 + n % 64]
  else [240 + n / 262144, 128 + (n / 4096) % 64, 128 + (n / 64) % 64, 128 + n % 64]

/-- `s.encode("utf-8")` (Lean `Char` is always a scalar value, so the
`errors="ignore"` branch never fires). -/
def strBytes (s : String) : List Nat :=
  s.data.flatMap utf8Bytes

/-- Left-rotation of a 32-bit word (input already `< 2^32`); the single
trailing `% 2^32` keeps the result a word. -/
def rotl (k x : Nat) : Nat :=
  (x * 2 ^ k + x / 2 ^ (32 - k)) % 4294967296

/-- The SHA-1 round logical function `f_t`. -/
def sha1F (t b c d : Nat) : Nat :=
  if t < 20 then (b.land c).lor ((4294967295 - b).land d)
  else if t < 40 then (b.xor c).xor d
  else if t < 60 then ((b.land c).lor (b.land d)).lor (c.land d)
  else (b.xor c).xor d

/-- The SHA-1 round constant `K_t`. -/
def sha1K (t : Nat) : Nat :=
  if t < 20 then 1518500249
  else if t < 40 then 1859775393
  else if t < 60 then 2400959708
  else 3395469782

/-- One SHA-1 round: state `(a,b,c,d,e)`, input `(t, W_t)`. -/
def sha1Round (st : Nat × Nat × Nat × Nat × Nat) (tw : Nat × Nat) :
    Nat × Nat × Nat × Nat × Nat :=
  let a := st.1; let b := st.2.1; let c := st.2.2.1
  let d := st.2.2.2.1; let e := st.2.2.2.2
  ((rotl 5 a + sha1F tw.1 b c d + e + sha1K tw.1 + tw.2) % 4294967296,
    a, rotl 30 b, c, d)

/-- Message-schedule extension: append `k` more words
`W_t = ROTL1(W_{t-3} xor W_{t-8} xor W_{t-14} xor W_{t-16})`. -/
def extendW : Nat → List Nat → List Nat
  | 0, ws => ws
  | k + 1, ws =>
    let n := ws.length
    extendW k (ws ++ [rotl 1 (((ws.getD (n - 3) 0).xor (ws.getD (n - 8) 0)).xor
      ((ws.getD (n - 14) 0).xor (ws.getD (n - 16) 0)))])

/-- Big-endian 32-bit words from a byte list. -/
def bytesToWords : List Nat → List Nat
  | b0 :: b1 :: b2 :: b3 :: rest =>
    (b0 * 16777216 + b1 * 65536 + b2 * 256 + b3) :: bytesToWords rest
  | _ => []

/-- Compression of one 512-bit block into the hash state. -/
def sha1Compress (h : Nat × Nat × Nat × Nat × Nat) (blockBytes : List Nat) :
    Nat × Nat × Nat × Nat × Nat :=
  let ws := extendW 64 (bytesToWords blockBytes)
  let r := (ws.enum.map (fun p => (p.1, p.2))).foldl sha1Round h
  ((h.1 + r.1) % 4294967296, (h.2.1 + r.2.1) % 4294967296,
    (h.2.2.1 + r.2.2.1) % 4294967296, (h.2.2.2.1 + r.2.2.2.1) % 4294967296,
    (h.2.2.2.2 + r.2.2.2.2) % 4294967296)

/-- The 8-byte big-endian length field of the padding. -/
def lenBytes (bits : Nat) : List Nat :=
  [bits / 72057594037927936 % 256, bits / 281474976710656 % 256,
   bits / 1099511627776 % 256, bits / 4294967296 % 256,
   bits / 16777216 % 256, bits / 65536 % 256, bits / 256 % 256, bits % 256]

/-- SHA-1 padding: `0x80`, zeros to 56 mod 64, then the bit length. -/
def sha1Pad (msg : List Nat) : List Nat :=
  let rem := (msg.length + 1) % 64
  let zeros := if rem ≤ 56 then 56 - rem else 120 - rem
  msg ++ [128] ++ List.replicate zeros 0 ++ lenBytes (8 * msg.length)

/-- Split a byte list into 64-byte blocks (fuel-driven; the fuel
`length + 1` always suffices). -/
def toBlocks : Nat → List Nat → List (List Nat)
  | 0, _ => []
  | _, [] => []
  | fuel + 1, bs => bs.take 64 :: toBlocks fuel (bs.drop 64)

/-- The SHA-1 initial hash state. -/
def sha1Init : Nat × Nat × Nat × Nat × Nat :=
  (1732584193, 4023233417, 2562383102, 271733878, 3285377520)

/-- Assemble the five state words into the 160-bit digest number. -/
def sha1Out (h : Nat × Nat × Nat × Nat × Nat) : Nat :=
  h.1 * 2 ^ 128 + h.2.1 * 2 ^ 96 + h.2.2.1 * 2 ^ 64 + h.2.2.2.1 * 2 ^ 32 + h.2.2.2.2

/-- The 160-bit SHA-1 digest of a byte list, as a natural number. -/
def sha1Digest (msg : List Nat) : Nat :=
  sha1Out ((toBlocks ((sha1Pad msg).length + 1) (sha1Pad msg)).foldl sha1Compress sha1Init)

/-- The digest of the source's `sha1` helper, as a natural number. -/
def sha1Nat (s : String) : Nat :=
  sha1Digest (strBytes s)

/-- `sha1(s)` = `hashlib.sha1(s.encode("utf-8", errors="ignore")).hexdigest()`:
40 lowercase hex digits. -/
def sha1 (s : String) : String :=
  (natToHex 40 (sha1Nat s)).asString

/-- All five components of the hash state stay below `2^32`. -/
def HState (h : Nat × Nat × Nat × Nat × Nat) : Prop :=
  h.1 < 4294967296 ∧ h.2.1 < 4294967296 ∧ h.2.2.1 < 4294967296 ∧
    h.2.2.2.1 < 4294967296 ∧ h.2.2.2.2 < 4294967296

theorem sha1Compress_hstate (h : Nat × Nat × Nat × Nat × Nat) (b : List Nat) :
    HState (sha1Compress h b) := by
  refine ⟨?_, ?_, ?_, ?_, ?_⟩ <;>
    exact Nat.mod_lt _ (by norm_num)

theorem foldl_sha1Compress_hstate (l : List (List Nat)) (init : Nat × Nat × Nat × Nat × Nat)
    (hinit : HState init) : HState (l.foldl sha1Compress init) := by
  induction l generalizing init with
  | nil => exact hinit
  | cons b l ih =>
    rw [List.foldl_cons]
    exact ih _ (sha1Compress_hstate init b)

theorem sha1Out_lt (h : Nat × Nat × Nat × Nat × Nat) (hs : HState h) :
    sha1Out h < 2 ^ 160 := by
  obtain ⟨h1, h2, h3, h4, h5⟩ := hs
  unfold sha1Out
  omega

/-- The SHA-1 digest is a 160-bit number. -/
theorem sha1Nat_lt (s : String) : sha1Nat s < 2 ^ 160 :=
  sha1Out_lt _ (foldl_sha1Compress_hstate _ sha1Init
    ⟨by norm_num [sha1Init], by norm_num [sha1Init], by norm_num [sha1Init],
     by norm_num [sha1Init], by norm_num [sha1Init]⟩)

/-!  ## Regex scanners (ios_rag_mvp.py lines 82-116)

Each Python regex is hand-compiled to an executable scanner.  `re.findall`
and `re.search` scan left to right, try a match at every position,
and resume after the end of a (non-empty) match; the drivers below use
structural fuel `length + 1`, which always suffices since every pattern
consumes at least one character.
-/

/-- `re.findall` driver: `matchAt` returns the suffix after the match and
the captured group.  Non-overlapping, left to right. -/
def findallAux (matchAt : List Char → Option (List Char × String)) :
    Nat → List Char → List String
  | 0, _ => []
  | _ + 1, [] => []
  | fuel + 1, c :: rest =>
    match matchAt (c :: rest) with
    | some (after, cap) => cap :: findallAux matchAt fuel after
    | none => findallAux matchAt fuel rest

/-- `SWIFTUI_A11Y_ID_RE` at one position:
`\.accessibilityIdentifier\(\s*"([^"]+)"\s*\)`. -/
def matchA11yCall (s : List Char) : Option (List Char × String) :=
  match dropLit ".accessibilityIdentifier(".data s with
  | none => none
  | some r1 =>
    match r1.dropWhile isPyWs with
    | '"' :: r3 =>
      let cap := r3.takeWhile (fun c => c != '"')
      if cap.isEmpty then none
      else
        match r3.drop cap.length with
        | '"' :: r4 =>
          match r4.dropWhile isPyWs with
          | ')' :: r6 => some (r6, cap.asString)
          | _ => none
        | _ => none
    | _ => none

/-- `UIKIT_A11Y_ID_RE` at one position:
`\.accessibilityIdentifier\s*=\s*"([^"]+)"`. -/
def matchA11yAssign (s : List Char) : Option (List Char × String) :=
  match dropLit ".accessibilityIdentifier".data s with
  | none => none
  | some r1 =>
    match r1.dropWhile isPyWs with
    | '=' :: r3 =>
      match r3.dropWhile isPyWs with
      | '"' :: r5 =>
        let cap := r5.takeWhile (fun c => c != '"')
        if cap.isEmpty then none
        else
          match r5.drop cap.length with
          | '"' :: r6 => some (r6, cap.asString)
          | _ => none
      | _ => none
    | _ => none

/-- `SWIFTUI_BUTTON_RE` at one position: `Button\(\s*"([^"]+)"\s*\)`. -/
def matchButton (s : List Char) : Option (List Char × String) :=
  match dropLit "Button(".data s with
  | none => none
  | some r1 =>
    match r1.dropWhile isPyWs with
    | '"' :: r3 =>
      let cap := r3.takeWhile (fun c => c != '"')
      if cap.isEmpty then none
      else
        match r3.drop cap.length with
        | '"' :: r4 =>
          match r4.dropWhile isPyWs with
          | ')' :: r6 => some (r6, cap.asString)
          | _ => none
        | _ => none
    | _ => none

/-- `SWIFTUI_A11Y_ID_RE.findall(s)`. -/
def swiftuiA11yFindall (s : String) : List String :=
  findallAux matchA11yCall (s.data.length + 1) s.data

/-- `UIKIT_A11Y_ID_RE.findall(s)`. -/
def uikitA11yFindall (s : String) : List String :=
  findallAux matchA11yAssign (s.data.length + 1) s.data

/-- `SWIFTUI_BUTTON_RE.findall(s)`. -/
def swiftuiButtonFindall (s : String) : List String :=
  findallAux matchButton (s.data.length + 1) s.data

/-- First alternative of a `\b(w1|w2|...)\b` vocabulary that matches at this
position with a valid trailing word boundary (regex alternation backtracks
into the next alternative if the trailing `\b` fails; no vocabulary word is
a prefix of another, so at most one alternative can succeed). -/
def vocabAt : List (List Char) → List Char → Option (List Char)
  | [], _ => none
  | w :: ws, s =>
    match dropLit w s with
    | some r =>
      if r.head?.all (fun c => !(isWordChar c)) then some r else vocabAt ws s
    | none => vocabAt ws s

/-- `len(RE.findall(s))` for a `\b(w1|...|wn)\b` keyword-alternation regex;
`prevWord` tracks whether the previous character is a word character (the
leading `\b`). -/
def countVocabAux (vocab : List (List Char)) : Nat → Bool → List Char → Nat
  | 0, _, _ => 0
  | _ + 1, _, [] => 0
  | fuel + 1, prevWord, c :: rest =>
    if !prevWord then
      match vocabAt vocab (c :: rest) with
      | some r => 1 + countVocabAux vocab fuel true r
      | none => countVocabAux vocab fuel (isWordChar c) rest
    else countVocabAux vocab fuel (isWordChar c) rest

/-- The `SWIFTUI_INTERACTIVE_RE` vocabulary, in alternation order. -/
def swiftuiVocab : List (List Char) :=
  ["Button".data, "TextField".data, "SecureField".data, "Toggle".data, "Picker".data]

/-- The `UIKIT_INTERACTIVE_RE` vocabulary, in alternation order. -/
def uikitVocab : List (List Char) :=
  ["UIButton".data, "UITextField".data, "UISwitch".data, "UISegmentedControl".data,
   "UITableView".data, "UICollectionView".data]

/-- `len(SWIFTUI_INTERACTIVE_RE.findall(s))`. -/
def swiftuiInteractiveCount (s : String) : Nat :=
  countVocabAux swiftuiVocab (s.data.length + 1) false s.data

/-- `len(UIKIT_INTERACTIVE_RE.findall(s))`. -/
def uikitInteractiveCount (s : String) : Nat :=
  countVocabAux uikitVocab (s.data.length + 1) false s.data

/-- Shape of one `NAV_PATTERNS` entry: a leading literal (preceded by `\b`;
every lead starts with a word character), further literals each preceded by
`\s*`, and an optional trailing `\b`. -/
structure NavPat where
  lead : List Char
  tail : List (List Char)
  wordEnd : Bool

/-- `NAV_PATTERNS` (ios_rag_mvp.py lines 99-107), in order. -/
def NAV_PATTERNS : List NavPat :=
  [⟨"navigationController?.".data, ["pushViewController".data, "(".data], false⟩,
   ⟨"pushViewController".data, ["(".data], false⟩,
   ⟨"present".data, ["(".data], false⟩,
   ⟨"NavigationStack".data, [], true⟩,
   ⟨"navigationDestination".data, ["(".data], false⟩,
   ⟨"sheet".data, ["(".data], false⟩,
   ⟨"fullScreenCover".data, ["(".data], false⟩]

/-- Match the `\s*`-separated literal tail of a navigation pattern. -/
def navTailMatch : List (List Char) → List Char → Option (List Char)
  | [], s => some s
  | t :: ts, s =>
    match dropLit t (s.dropWhile isPyWs) with
    | some r => navTailMatch ts r
    | none => none

/-- One navigation pattern at one position (leading `\b` checked by the
caller). -/
def navAt (p : NavPat) (s : List Char) : Bool :=
  match dropLit p.lead s with
  | some r0 =>
    match navTailMatch p.tail r0 with
    | some r => !p.wordEnd || r.head?.all (fun c => !(isWordChar c))
    | none => false
  | none => false

/-- `pat.search(s) is not None` for one navigation pattern, over a suffix. -/
def navSearchAux (p : NavPat) : Nat → Bool → List Char → Bool
  | 0, _, _ => false
  | _ + 1, _, [] => false
  | fuel + 1, prevWord, c :: rest =>
    (!prevWord && navAt p (c :: rest)) || navSearchAux p fuel (isWordChar c) rest

/-- `pat.search(s)` on a character list. -/
def navSearchList (p : NavPat) (l : List Char) : Bool :=
  navSearchAux p (l.length + 1) false l

/-- `pat.search(s)` on a string. -/
def navSearch (p : NavPat) (s : String) : Bool :=
  navSearchList p s.data

/-- `sum(1 for pat in NAV_PATTERNS if pat.search(block))`. -/
def navHitCount (s : String) : Nat :=
  (NAV_PATTERNS.filter (fun p => navSearch p s)).length

/-- Python `str.splitlines()` (ASCII line boundaries `\n`, `\r`, `\r\n`;
no trailing empty line). -/
def splitlinesAux : List Char → List Char → List (List Char)
  | cur, [] => if cur.isEmpty then [] else [cur.reverse]
  | cur, '\r' :: '\n' :: rest => cur.reverse :: splitlinesAux [] rest
  | cur, '\r' :: rest => cur.reverse :: splitlinesAux [] rest
  | cur, '\n' :: rest => cur.reverse :: splitlinesAux [] rest
  | cur, c :: rest => splitlinesAux (c :: cur) rest

/-- The navigation-line digest of a file (ios_rag_mvp.py lines 265-270):
stripped matching lines, capped at 60 (the loop `break`s once 60 lines have
been collected, which is `filter`-then-`take`). -/
def navLines (file_text : String) : List String :=
  (((splitlinesAux [] file_text.data).filter
      (fun l => NAV_PATTERNS.any (fun p => navSearchList p l))).map
    (fun l => (pyStripList l).asString)).take 60

/-!  ## Declaration matchers and `finditer`

`SWIFTUI_VIEW_START_RE` =
`(?m)^\s*(public|internal|private|fileprivate|open)?\s*struct\s+([A-Za-z_]\w*)\s*:\s*View\s*\{`
and `UIKIT_VC_START_RE` =
`(?m)^\s*(public|internal|private|fileprivate|open)?\s*(final\s+)?class\s+([A-Za-z_]\w*)\s*:\s*([^{\n]*\bUIViewController\b[^{\n]*)\s*\{`.

The backtracking of these two patterns is deterministic: `\s*`/`\s+`/`\w*`
runs are forced because the token that follows each run can never begin
with a character of the run's class, and the optional modifier / `final`
groups are forced because no modifier word is a prefix of another and none
equals `struct`/`class`.  The only genuinely nondeterministic piece,
`[^{\n]*\bUIViewController\b[^{\n]*\s*\{`, is resolved in the doc comment
of `findUIVCAux`.
-/

/-- An `re` match object: captured name group, `m.start()`, `m.end()`. -/
structure RegexMatch where
  name : String
  start : Nat
  stop : Nat
deriving DecidableEq

/-- The access-modifier alternation `(public|internal|private|fileprivate|open)`,
in order. -/
def modifierWords : List (List Char) :=
  ["public".data, "internal".data, "private".data, "fileprivate".data, "open".data]

/-- First modifier word matching at this position (no word is a prefix of
another, so at most one can match). -/
def tryModifier : List (List Char) → List Char → Option (List Char)
  | [], _ => none
  | w :: ws, r =>
    match dropLit w r with
    | some r2 => some r2
    | none => tryModifier ws r

/-- `struct\s+([A-Za-z_]\w*)` name parser: first character `[A-Za-z_]`,
then a maximal `\w*` run. -/
def parseIdent : List Char → Option (List Char × List Char)
  | [] => none
  | c :: cs =>
    if c.isAlpha || c = '_' then
      some (c :: cs.takeWhile isWordChar, cs.dropWhile isWordChar)
    else none

/-- `struct\s+([A-Za-z_]\w*)\s*:\s*View\s*\{` starting exactly here; answers
the suffix after the `{` and the captured name. -/
def structTail (r : List Char) : Option (List Char × String) :=
  match dropLit "struct".data r with
  | none => none
  | some r1 =>
    match r1 with
    | [] => none
    | c :: _ =>
      if isPyWs c then
        match parseIdent (r1.dropWhile isPyWs) with
        | none => none
        | some (nm, r3) =>
          match r3.dropWhile isPyWs with
          | ':' :: r5 =>
            match dropLit "View".data (r5.dropWhile isPyWs) with
            | none => none
            | some r7 =>
              match r7.dropWhile isPyWs with
              | '\x7b' :: r9 => some (r9, nm.asString)
              | _ => none
          | _ => none
      else none

/-- `[^{\n]*\bUIViewController\b` scan: look for a word-bounded
`UIViewController` to the right, failing on `{`, newline or end of text.
A greedy engine would pick the rightmost valid occurrence; since the suffix
after the group (`[^{\n]*\s*\{`) reaches the same first `{` for every
occurrence inside the same `[^{\n]` segment, the leftmost occurrence (used
here) yields the same match extent and the same captured name group. -/
def findUIVCAux : Nat → Bool → List Char → Option (List Char)
  | 0, _, _ => none
  | _ + 1, _, [] => none
  | fuel + 1, prevWord, c :: rest =>
    if c = '\x7b' || c = '\n' then none
    else if !prevWord then
      match dropLit "UIViewController".data (c :: rest) with
      | some r =>
        if r.head?.all (fun x => !(isWordChar x)) then some r
        else findUIVCAux fuel (isWordChar c) rest
      | none => findUIVCAux fuel (isWordChar c) rest
    else findUIVCAux fuel (isWordChar c) rest

/-- `(final\s+)?class\s+([A-Za-z_]\w*)\s*:\s*([^{\n]*\bUIViewController\b[^{\n]*)\s*\{`
starting exactly here. -/
def classTail (r0 : List Char) : Option (List Char × String) :=
  let r := match dropLit "final".data r0 with
    | some rf =>
      match rf with
      | c :: _ => if isPyWs c then rf.dropWhile isPyWs else r0
      | [] => r0
    | none => r0
  match dropLit "class".data r with
  | none => none
  | some r1 =>
    match r1 with
    | [] => none
    | c :: _ =>
      if isPyWs c then
        match parseIdent (r1.dropWhile isPyWs) with
        | none => none
        | some (nm, r3) =>
          match r3.dropWhile isPyWs with
          | ':' :: r5 =>
            let r6 := r5.dropWhile isPyWs
            match findUIVCAux (r6.length + 1) false r6 with
            | some r7 =>
              let r8 := r7.dropWhile (fun x => !(x = '\x7b' || x = '\n'))
              match r8.dropWhile isPyWs with
              | '\x7b' :: r9 => some (r9, nm.asString)
              | _ => none
            | none => none
          | _ => none
      else none

/-- Whole-pattern match at one `^` position: `\s*`, optional modifier with
fallback to the empty alternative, then the construct-specific tail. -/
def declAtPos (tail : List Char → Option (List Char × String)) (s : List Char) :
    Option (List Char × String) :=
  let r1 := s.dropWhile isPyWs
  match tryModifier modifierWords r1 with
  | some rA =>
    match tail (rA.dropWhile isPyWs) with
    | some res => some res
    | none => tail r1
  | none => tail r1

/-- `re.finditer` driver for the two `(?m)^`-anchored declaration patterns:
try the pattern at every line-start position, left to right, resuming after
each match (both patterns end in `{`, so the resume position is never a
line start). -/
def finditerAux (declAt : List Char → Option (List Char × String)) :
    Nat → Nat → Bool → List Char → List RegexMatch
  | 0, _, _, _ => []
  | _ + 1, _, _, [] => []
  | fuel + 1, pos, lineStart, c :: rest =>
    if lineStart then
      match declAt (c :: rest) with
      | some (after, nm) =>
        ⟨nm, pos, pos + ((c :: rest).length - after.length)⟩ ::
          finditerAux declAt fuel (pos + ((c :: rest).length - after.length)) false after
      | none => finditerAux declAt fuel (pos + 1) (c = '\n') rest
    else
      finditerAux declAt fuel (pos + 1) (c = '\n') rest

/-- `re.finditer(pattern, text)` for a declaration pattern. -/
def regexFinditer (declAt : List Char → Option (List Char × String))
    (text : List Char) : List RegexMatch :=
  finditerAux declAt (text.length + 1) 0 true text

/-- `SWIFTUI_VIEW_START_RE.finditer(text)`. -/
def swiftuiViewMatches (text : String) : List RegexMatch :=
  regexFinditer (declAtPos structTail) text.data

/-- `UIKIT_VC_START_RE.finditer(text)`. -/
def uikitVCMatches (text : String) : List RegexMatch :=
  regexFinditer (declAtPos classTail) text.data

/-!  ## `extract_blocks` (ios_rag_mvp.py lines 177-190)  -/

/-- The body of the `extract_blocks` loop for one match `m`:
`brace_open = text.find("{", m.end() - 1)`; on `-1` the match is skipped
(`continue`); otherwise the block is
`text[m.start() : find_matching_brace(text, brace_open) + 1].strip()`. -/
def blockOf (text : List Char) (m : RegexMatch) : Option (String × String) :=
  match findCharFrom text '\x7b' (m.stop - 1) with
  | none => none
  | some bo =>
    some (m.name,
      (pyStripList (pySlice text m.start (find_matching_brace text bo + 1))).asString)

/-- `extract_blocks(text, start_re, name_group, kind)`: the `(name, block)`
list over the matches of the start pattern (the `name_group` selection and
the `finditer` call are performed by the match producer; the unused `kind`
argument of the source is omitted). -/
def extract_blocks (text : List Char) (ms : List RegexMatch) :
    List (String × String) :=
  ms.filterMap (blockOf text)

/-!  ## Chunk building (ios_rag_mvp.py lines 53-57, 172-282)  -/

/-- A retrieval chunk: `text` plus its (insertion-ordered) metadata dict. -/
structure Chunk where
  text : String
  meta : List (String × JVal)

/-- Python string comparison `s <= t`: lexicographic by code point. -/
def charListLe : List Char → List Char → Bool
  | [], _ => true
  | _ :: _, [] => false
  | a :: as, b :: bs =>
    if a.toNat < b.toNat then true
    else if b.toNat < a.toNat then false
    else charListLe as bs

/-- Python `s <= t` on strings. -/
def pyStrLe (s t : String) : Bool :=
  charListLe s.data t.data

/-- Insertion into a sorted list (for Python `sorted`). -/
def insertSorted (x : String) : List String → List String
  | [] => [x]
  | y :: ys => if pyStrLe x y then x :: y :: ys else y :: insertSorted x ys

/-- Python `sorted` on a list of strings (on the distinct elements of a set
every correct sort yields the same list, so stability is irrelevant). -/
def insertionSortPy : List String → List String
  | [] => []
  | x :: xs => insertSorted x (insertionSortPy xs)

/-- The distinct elements of a list (for Python `set(...)`). -/
def dedupPy : List String → List String
  | [] => []
  | x :: xs => if x ∈ dedupPy xs then dedupPy xs else x :: dedupPy xs

/-- Python `sorted(set(l))` for strings: the distinct elements in
lexicographic code-point order. -/
def sortedSet (l : List String) : List String :=
  insertionSortPy (dedupPy l)

/-- `meta_list_to_str(items, limit)` (ios_rag_mvp.py lines 53-57); every
call site uses the default `limit=200`. -/
def meta_list_to_str (items : List String) (limit : Nat) : String :=
  if items.isEmpty then "" else String.intercalate "|" (items.take limit)

/-- The `{**meta, "kind": "screen_card"}` merge: same keys in the same
insertion order, with the (already present) `kind` value replaced. -/
def withKindScreenCard (meta : List (String × JVal)) : List (String × JVal) :=
  meta.map (fun kv => if kv.1 = "kind" then (kv.1, JVal.str "screen_card") else kv)

/-- Block chunk + screen-card chunk for one SwiftUI view block
(ios_rag_mvp.py lines 196-223). -/
def viewChunkPair (rel_path : String) (nb : String × String) : List Chunk :=
  let view_name := nb.1
  let block := nb.2
  let a11y_ids := sortedSet (swiftuiA11yFindall block)
  let buttons := sortedSet (swiftuiButtonFindall block)
  let nav_hits := navHitCount block
  let meta : List (String × JVal) :=
    [("kind", .str "swiftui_view"), ("path", .str rel_path),
     ("screen", .str view_name), ("symbol", .str view_name),
     ("accessibility_ids", .str (meta_list_to_str a11y_ids 200)),
     ("accessibility_id_count", .int a11y_ids.length),
     ("buttons", .str (meta_list_to_str (buttons.take 50) 200)),
     ("button_count", .int buttons.length),
     ("navigation_signals", .int nav_hits)]
  let card : JVal := .obj
    [("type", .str "SCREEN_CARD"), ("ui", .str "SwiftUI"),
     ("screen", .str view_name), ("path", .str rel_path),
     ("buttons", .arr ((buttons.take 50).map .str)),
     ("accessibility_ids", .arr ((a11y_ids.take 200).map .str)),
     ("has_navigation_signals", .bool (decide (nav_hits ≠ 0)))]
  [⟨block, meta⟩, ⟨safe_json card, withKindScreenCard meta⟩]

/-- Block chunk + screen-card chunk for one UIKit view-controller block
(ios_rag_mvp.py lines 226-248). -/
def vcChunkPair (rel_path : String) (nb : String × String) : List Chunk :=
  let cls_name := nb.1
  let block := nb.2
  let a11y_ids := sortedSet (uikitA11yFindall block)
  let nav_hits := navHitCount block
  let meta : List (String × JVal) :=
    [("kind", .str "uikit_viewcontroller"), ("path", .str rel_path),
     ("screen", .str cls_name), ("symbol", .str cls_name),
     ("accessibility_ids", .str (meta_list_to_str a11y_ids 200)),
     ("accessibility_id_count", .int a11y_ids.length),
     ("navigation_signals", .int nav_hits)]
  let card : JVal := .obj
    [("type", .str "SCREEN_CARD"), ("ui", .str "UIKit"),
     ("screen", .str cls_name), ("path", .str rel_path),
     ("accessibility_ids", .arr ((a11y_ids.take 200).map .str)),
     ("has_navigation_signals", .bool (decide (nav_hits ≠ 0)))]
  [⟨block, meta⟩, ⟨safe_json card, withKindScreenCard meta⟩]

/-- `sorted(set(SWIFTUI_A11Y_ID_RE.findall(file_text)) | set(UIKIT_A11Y_ID_RE.findall(file_text)))`
(ios_rag_mvp.py line 251). -/
def fileA11yIds (file_text : String) : List String :=
  sortedSet (swiftuiA11yFindall file_text ++ uikitA11yFindall file_text)

/-- The per-file accessibility-map chunk, when any identifier occurs
anywhere in the raw file text (ios_rag_mvp.py lines 251-262). -/
def amapChunks (file_text rel_path : String) : List Chunk :=
  let file_ids := fileA11yIds file_text
  if file_ids.isEmpty then []
  else
    [⟨"ACCESSIBILITY_IDS\npath: " ++ rel_path ++ "\n" ++ String.intercalate "\n" file_ids,
      [("kind", .str "accessibility_map"), ("path", .str rel_path),
       ("accessibility_ids", .str (meta_list_to_str file_ids 200)),
       ("accessibility_id_count", .int file_ids.length)]⟩]

/-- The per-file navigation-signals chunk, when any line matches a
navigation pattern (ios_rag_mvp.py lines 265-273). -/
def navChunks (file_text rel_path : String) : List Chunk :=
  let nls := navLines file_text
  if nls.isEmpty then []
  else
    [⟨"NAVIGATION_SIGNALS\npath: " ++ rel_path ++ "\n" ++ String.intercalate "\n" nls,
      [("kind", .str "navigation_signals"), ("path", .str rel_path)]⟩]

/-- The raw fallback (ios_rag_mvp.py lines 276-280): only a non-empty
trimmed file yields the (at most 4000 character) raw chunk. -/
def rawFallbackChunks (file_text rel_path : String) : List Chunk :=
  let raw := py_strip file_text
  if raw = "" then []
  else [⟨pyTake raw 4000, [("kind", .str "swift_raw"), ("path", .str rel_path)]⟩]

/-- The chunks a file produces before the fallback rule: view pairs, then
view-controller pairs, then the accessibility map, then the navigation
digest. -/
def preChunks (file_text rel_path : String) : List Chunk :=
  (extract_blocks file_text.data (swiftuiViewMatches file_text)).flatMap
      (viewChunkPair rel_path)
    ++ (extract_blocks file_text.data (uikitVCMatches file_text)).flatMap
      (vcChunkPair rel_path)
    ++ amapChunks file_text rel_path
    ++ navChunks file_text rel_path

/-- `build_chunks_for_file(file_text, rel_path)` (ios_rag_mvp.py
lines 192-282). -/
def build_chunks_for_file (file_text rel_path : String) : List Chunk :=
  let pre := preChunks file_text rel_path
  if pre.isEmpty then rawFallbackChunks file_text rel_path else pre

/-!  ## Accessibility audit (ios_rag_mvp.py lines 289-337)  -/

/-- One audit finding (the `AuditFinding` dataclass, field order kept for
the `__dict__` serialization). -/
structure AuditFinding where
  path : String
  screen : String
  ui : String
  interactive_count : Nat
  accessibility_id_count : Nat
deriving DecidableEq

/-- The findings one chunk contributes inside the `audit_accessibility`
loop: the `swiftui_view` branch, then the `uikit_viewcontroller` branch
(´kind´ is a single value, so at most one branch fires). -/
def chunkFindings (ch : Chunk) : List AuditFinding :=
  (if metaIsStr ch.meta "kind" "swiftui_view" then
    (if 0 < swiftuiInteractiveCount ch.text ∧ (swiftuiA11yFindall ch.text).length = 0 then
      [⟨metaPyStr ch.meta "path", metaPyStr ch.meta "screen", "SwiftUI",
        swiftuiInteractiveCount ch.text, (swiftuiA11yFindall ch.text).length⟩]
    else [])
  else []) ++
  (if metaIsStr ch.meta "kind" "uikit_viewcontroller" then
    (if 0 < uikitInteractiveCount ch.text ∧ (uikitA11yFindall ch.text).length = 0 then
      [⟨metaPyStr ch.meta "path", metaPyStr ch.meta "screen", "UIKit",
        uikitInteractiveCount ch.text, (uikitA11yFindall ch.text).length⟩]
    else [])
  else [])

/-- The fixed note of the audit summary. -/
def auditNote : String :=
  "Heuristic audit: interactive elements exist but no accessibility identifiers were detected inside the screen block."

/-- `audit_accessibility(chunks)`: the findings in chunk order, and the
summary record (flagged count, note). -/
def audit_accessibility (chunks : List Chunk) : List AuditFinding × (Nat × String) :=
  (chunks.flatMap chunkFindings, ((chunks.flatMap chunkFindings).length, auditNote))

/-!  ## Store adapter and ingestion (ios_rag_mvp.py lines 353-357, 364-425)  -/

/-- A document handed to the vector store: page content plus metadata. -/
structure RagDoc where
  page_content : String
  metadata : List (String × JVal)

/-- The deterministic storage identifier of one document
(`sha1(d.page_content + safe_json(d.metadata))`, line 355). -/
def doc_id (d : RagDoc) : String :=
  sha1 (d.page_content ++ safe_json (.obj d.metadata))

/-- The identifier list `upsert_documents` passes to the store. -/
def upsert_ids (docs : List RagDoc) : List String :=
  docs.map doc_id

/-- `f.__dict__` of one finding, in dataclass field order. -/
def findingJson (f : AuditFinding) : JVal :=
  .obj [("path", .str f.path), ("screen", .str f.screen), ("ui", .str f.ui),
        ("interactive_count", .int f.interactive_count),
        ("accessibility_id_count", .int f.accessibility_id_count)]

/-- The audit-summary document content (ios_rag_mvp.py lines 387-395):
the flagged list is capped at 200 findings. -/
def auditSummaryJson (findings : List AuditFinding) : JVal :=
  .obj [("type", .str "ACCESSIBILITY_AUDIT"),
        ("summary", .obj [("flagged_screens", .int findings.length),
                          ("note", .str auditNote)]),
        ("flagged", .arr ((findings.take 200).map findingJson)),
        ("total_flagged", .int findings.length)]

/-- The audit-summary document. -/
def audit_doc (findings : List AuditFinding) : RagDoc :=
  ⟨safe_json (auditSummaryJson findings),
   [("kind", .str "accessibility_audit"), ("path", .str "_audit_")]⟩

/-- The chunk list of one ingestion run over the discovered
`(relative path, file text)` list: files whose stripped text is empty are
skipped (ios_rag_mvp.py lines 376-381). -/
def ingestChunks (files : List (String × String)) : List Chunk :=
  files.flatMap (fun pr => if py_strip pr.2 = "" then [] else build_chunks_for_file pr.2 pr.1)

/-- Outcome of `cmd_ingest`: the process exit code, the documents written
to the store (empty when ingestion aborts before the store call), and the
printed fail-fast example list, when that branch is taken. -/
structure IngestOutcome where
  exitCode : Nat
  upserted : List RagDoc
  failExamples : Option (List AuditFinding)

/-- `cmd_ingest(args)` (ios_rag_mvp.py lines 364-425), with the directory
walk abstracted to the discovered file list: exit 2 when no Swift files are
found; exit 3 with no store write and at most 20 printed examples when the
fail-fast flag is set and the audit flags at least one screen; otherwise
exit 0 after upserting the audit document followed by every chunk. -/
def cmd_ingest (files : List (String × String)) (fail_if_missing_ids : Bool) :
    IngestOutcome :=
  if files.isEmpty then ⟨2, [], none⟩
  else
    let all_chunks := ingestChunks files
    let findings := (audit_accessibility all_chunks).1
    if fail_if_missing_ids ∧ 0 < findings.length then ⟨3, [], some (findings.take 20)⟩
    else ⟨0, audit_doc findings :: all_chunks.map (fun ch => RagDoc.mk ch.text ch.meta), none⟩

/-!  ## Context assembly (python-backend/utils.py lines 104-158)  -/

/-- One collected code snippet. -/
structure Snippet where
  kind : String
  path : String
  screen : String
  content : String
deriving DecidableEq

/-- The assembled context bundle (`query_rag`'s result dict). -/
structure ContextBundle where
  accessibility_ids : List String
  screens : List String
  code_snippets : List Snippet
  total_docs_retrieved : Nat
  error : Option String
deriving DecidableEq

/-- `meta.get(k, "")` restricted to string values (every consulted field is
stored as a string by ingestion). -/
def getStrD (m : List (String × JVal)) (k d : String) : String :=
  match metaGet m k with
  | some (.str v) => v
  | _ => d

/-- Python `s.split("|")`. -/
def splitPipeAux (cur : List Char) : List Char → List String
  | [] => [cur.reverse.asString]
  | c :: rest =>
    if c = '|' then cur.reverse.asString :: splitPipeAux [] rest
    else splitPipeAux (c :: cur) rest

/-- Python `s.split("|")` on a string. -/
def pySplitPipe (s : String) : List String :=
  splitPipeAux [] s.data

/-- The identifiers one document contributes:
`"accessibility_ids" in meta` and truthy, split on `"|"`. -/
def docIdsList (d : RagDoc) : List String :=
  match metaGet d.metadata "accessibility_ids" with
  | some (.str v) => if v = "" then [] else pySplitPipe v
  | _ => []

/-- The screen name one document contributes:
`"screen" in meta and meta["screen"]` truthy. -/
def docScreenList (d : RagDoc) : List String :=
  match metaGet d.metadata "screen" with
  | some (.str v) => if v = "" then [] else [v]
  | _ => []

/-- The snippet one document contributes, when its `kind` is on the
high-value allow-list; content truncated to 500 characters. -/
def snippetOf (d : RagDoc) : Option Snippet :=
  let kind := getStrD d.metadata "kind" ""
  if kind = "swiftui_view" ∨ kind = "accessibility_map" ∨ kind = "screen_card" then
    some ⟨kind, getStrD d.metadata "path" "", getStrD d.metadata "screen" "",
      pyTake d.page_content 500⟩
  else none

/-- The `try` body of `query_rag` on the store's document list: union the
identifier sets and screen names into sets (`sorted(set)` of the
concatenated contributions), collect allow-listed snippets, truncate the
snippet list to 5, and sort the two sets. -/
def query_rag_bundle (docs : List RagDoc) : ContextBundle :=
  { accessibility_ids := sortedSet (docs.flatMap docIdsList),
    screens := sortedSet (docs.flatMap docScreenList),
    code_snippets := (docs.filterMap snippetOf).take 5,
    total_docs_retrieved := docs.length,
    error := none }

/-- `query_rag(test_description, k)` (utils.py lines 104-158), with the
store interaction abstracted to its outcome: a raised exception anywhere in
the `try` block yields the empty bundle with the error string attached; a
returned document list is assembled into a bundle. -/
def query_rag (result : Except String (List RagDoc)) : ContextBundle :=
  match result with
  | .ok docs => query_rag_bundle docs
  | .error e => ⟨[], [], [], 0, some e⟩

/-!  ## Test-type gate (agents/test_generator.py lines 41-43,
main.py lines 77-79)  -/

/-- Python `str.lower()`, restricted to ASCII (chars `A`-`Z` map down). -/
def pyToLower (s : String) : String :=
  (s.data.map Char.toLower).asString

/-- `request.test_type.lower().strip()`. -/
def normalize_test_type (s : String) : String :=
  py_strip (pyToLower s)

/-- The validation prefix of `TestGenerator.run`: an unrecognized test type
raises `ValueError` before any further processing; a recognized one
proceeds (with the normalized value).  (The source's message quotes the two
words; the quotes are elided here.) -/
def test_generator_gate (s : String) : Except String String :=
  if normalize_test_type s = "unit" ∨ normalize_test_type s = "ui" then
    .ok (normalize_test_type s)
  else .error "test_type must be unit or ui"

/-- The validation prefix of the `/generate-test-with-rag` endpoint:
an unrecognized test type raises `HTTPException(status_code=400)`. -/
def rag_endpoint_gate (s : String) : Except (Nat × String) String :=
  if normalize_test_type s = "unit" ∨ normalize_test_type s = "ui" then
    .ok (normalize_test_type s)
  else .error (400, "test_type must be unit or ui")

/-!  ## Helper lemmas  -/

theorem metaIsStr_unique (m : List (String × JVal)) (k a b : String)
    (ha : metaIsStr m k a = true) (hb : metaIsStr m k b = true) : a = b := by
  unfold metaIsStr at ha hb
  cases hv : metaGet m k with
  | none => rw [hv] at ha; cases ha
  | some v =>
    rw [hv] at ha hb
    cases v with
    | str s =>
      simp only [decide_eq_true_eq] at ha hb
      rw [← ha, ← hb]
    | int n => cases ha
    | bool b2 => cases ha
    | arr xs => cases ha
    | obj fs => cases ha

/-!  ## Claim C1: the audit predicate

Specification-side reformulation of the auditor's contract: a chunk is
flagged iff it is a view block or a controller block whose own stored text
has a positive interactive-control count and a zero
accessibility-identifier count (each counted with the regex vocabulary of
the chunk's UI paradigm), and the flagged chunk yields exactly the one
finding carrying those re-scanned counts.
-/

/-- Claim-side flag predicate. -/
def auditFlagSpec (ch : Chunk) : Bool :=
  (metaIsStr ch.meta "kind" "swiftui_view" &&
    (decide (0 < swiftuiInteractiveCount ch.text) &&
      decide ((swiftuiA11yFindall ch.text).length = 0))) ||
  (metaIsStr ch.meta "kind" "uikit_viewcontroller" &&
    (decide (0 < uikitInteractiveCount ch.text) &&
      decide ((uikitA11yFindall ch.text).length = 0)))

/-- Claim-side finding for a flagged chunk. -/
def auditFindingSpec (ch : Chunk) : AuditFinding :=
  if metaIsStr ch.meta "kind" "swiftui_view" then
    ⟨metaPyStr ch.meta "path", metaPyStr ch.meta "screen", "SwiftUI",
      swiftuiInteractiveCount ch.text, (swiftuiA11yFindall ch.text).length⟩
  else
    ⟨metaPyStr ch.meta "path", metaPyStr ch.meta "screen", "UIKit",
      uikitInteractiveCount ch.text, (uikitA11yFindall ch.text).length⟩

theorem chunkFindings_eq (ch : Chunk) :
    chunkFindings ch = if auditFlagSpec ch then [auditFindingSpec ch] else [] := by
  unfold chunkFindings auditFlagSpec auditFindingSpec
  by_cases hsv : metaIsStr ch.meta "kind" "swiftui_view" = true
  · have huv : metaIsStr ch.meta "kind" "uikit_viewcontroller" = false := by
      by_contra h
      rw [Bool.not_eq_false] at h
      exact absurd (metaIsStr_unique ch.meta "kind" _ _ hsv h) (by decide)
    rw [hsv, huv]
    by_cases hint : 0 < swiftuiInteractiveCount ch.text ∧ (swiftuiA11yFindall ch.text).length = 0
    · simp [hint.1, hint.2, hint]
    · rw [Classical.not_and_iff_or_not_not] at hint
      rcases hint with h1 | h1 <;> simp [h1, Classical.not_and_iff_or_not_not]
  · rw [Bool.not_eq_true] at hsv
    rw [hsv]
    by_cases huv : metaIsStr ch.meta "kind" "uikit_viewcontroller" = true
    · rw [huv]
      by_cases hint : 0 < uikitInteractiveCount ch.text ∧ (uikitA11yFindall ch.text).length = 0
      · simp [hint.1, hint.2, hint]
      · rw [Classical.not_and_iff_or_not_not] at hint
        rcases hint with h1 | h1 <;> simp [h1, Classical.not_and_iff_or_not_not]
    · rw [Bool.not_eq_true] at huv
      rw [huv]
      simp

theorem flatMap_singleton_filter {α β : Type} (p : α → Bool) (g : α → β)
    (l : List α) :
    (l.flatMap (fun a => if p a then [g a] else [])) = (l.filter p).map g := by
  induction l with
  | nil => rfl
  | cons a l ih =>
    by_cases h : p a <;> simp [List.flatMap_cons, List.filter_cons, h, ih]

/-- C1.  For every chunk in the ingestion run's chunk list, the
accessibility auditor emits exactly one finding for that chunk iff the
chunk's kind is `swiftui_view` or `uikit_viewcontroller` and, re-scanning
the chunk's own stored block text with the matching interactive-control
and accessibility-identifier regexes, the interactive count is positive
while the identifier count is zero; the findings list is exactly the
flagged chunks, in order, mapped to their re-scanned counts. -/
theorem audit_flags_iff (chunks : List Chunk) :
    (audit_accessibility chunks).1 = (chunks.filter auditFlagSpec).map auditFindingSpec ∧
    (∀ ch, (chunkFindings ch).length = if auditFlagSpec ch then 1 else 0) ∧
    (∀ ch, (chunkFindings ch).length = 1 ↔ auditFlagSpec ch = true) := by
  refine ⟨?_, ?_, ?_⟩
  · show chunks.flatMap chunkFindings = _
    rw [← flatMap_singleton_filter auditFlagSpec auditFindingSpec]
    exact List.flatMap_congr (fun ch _ => chunkFindings_eq ch)
  · intro ch
    rw [chunkFindings_eq]
    by_cases h : auditFlagSpec ch <;> simp [h]
  · intro ch
    rw [chunkFindings_eq]
    by_cases h : auditFlagSpec ch <;> simp [h]

/-- Witness for C1: of three concrete view-block chunks — one interactive
control and no identifier (flagged), one of each (not flagged), neither
(not flagged) — the audit emits exactly the one finding, with the
re-scanned counts. -/
theorem audit_flags_iff_witness :
    (audit_accessibility
      [⟨"Button(\"go\")", [("kind", JVal.str "swiftui_view"), ("path", JVal.str "A.swift"),
        ("screen", JVal.str "A")]⟩,
       ⟨"Button(\"go\").accessibilityIdentifier(\"goBtn\")",
        [("kind", JVal.str "swiftui_view"), ("path", JVal.str "A.swift"),
         ("screen", JVal.str "B")]⟩,
       ⟨"let x = 1", [("kind", JVal.str "swiftui_view"), ("path", JVal.str "A.swift"),
        ("screen", JVal.str "C")]⟩]).1
      = [⟨"A.swift", "A", "SwiftUI", 1, 0⟩] := by
  rw [(audit_flags_iff _).1]
  rfl

/-!  ## Claim C3: block extents  -/

/-- C3 counterexample.  The claim asserts that when no opening delimiter is
found at or after the match's end, the block runs to end-of-text; the code
instead `continue`s, emitting no block at all for that match: on the text
`"struct X: Foo"` with a match covering the whole text, `extract_blocks`
returns the empty list rather than a block extending to end-of-text.
(With the repository's two declaration patterns, which both end in `{`,
this branch is unreachable, since `text[m.end()-1]` is itself a `{`.) -/
theorem extract_blocks_skips_braceless_match :
    extract_blocks "struct X: Foo".data [⟨"X", 0, 13⟩] = [] ∧
    pyStripList "struct X: Foo".data ≠ [] := by
  constructor
  · rfl
  · decide

/-- C3 (amended).  For every file text and declaration match list, and
every match in it: if an opening `{` exists at or after the match's end,
the emitted block is the trimmed span from the match's start through
`find_matching_brace`'s answer, and that answer is either the first
position at or after the `{` where the naive brace count (ignoring strings
and comments, at any nesting depth) returns to zero at a `}`, or — when
the depth never returns to zero — the last position of the text, so the
block runs to end-of-text; if no opening `{` exists, the match is skipped
and contributes no block. -/
theorem extract_blocks_extent (text : List Char) (ms : List RegexMatch)
    (m : RegexMatch) (hm : m ∈ ms) :
    (findCharFrom text '\x7b' (m.stop - 1) = none → blockOf text m = none) ∧
    (∀ bo, findCharFrom text '\x7b' (m.stop - 1) = some bo →
      blockOf text m = some (m.name,
        (pyStripList (pySlice text m.start (find_matching_brace text bo + 1))).asString) ∧
      (m.name,
        (pyStripList (pySlice text m.start (find_matching_brace text bo + 1))).asString)
        ∈ extract_blocks text ms ∧
      ((∃ k, find_matching_brace text bo = bo + k ∧ IsClose (text.drop bo) 0 k ∧
          ∀ j < k, ¬ IsClose (text.drop bo) 0 j) ∨
        ((∀ k, ¬ IsClose (text.drop bo) 0 k) ∧
          find_matching_brace text bo = text.length - 1))) := by
  constructor
  · intro h
    unfold blockOf
    rw [h]
  · intro bo hbo
    have hblock : blockOf text m = some (m.name,
        (pyStripList (pySlice text m.start (find_matching_brace text bo + 1))).asString) := by
      unfold blockOf
      rw [hbo]
    refine ⟨hblock, ?_, ?_⟩
    · exact List.mem_filterMap.mpr ⟨m, hm, hblock⟩
    · unfold find_matching_brace
      cases hr : fmbAux (text.drop bo) 0 bo with
      | some j =>
        obtain ⟨k, hk1, hk2, hk3⟩ := (fmbAux_some_iff (text.drop bo) 0 bo j).1 hr
        exact Or.inl ⟨k, by rw [hk1], hk2, hk3⟩
      | none =>
        exact Or.inr ⟨(fmbAux_none_iff (text.drop bo) 0 bo).1 hr, rfl⟩

/-- Witness for C3: on `"struct A: View { f { g } h } tail"` with its
(actual) declaration match ending just past the `{` at index 15, the
emitted block is the trimmed span through the matching `}` at index 27 —
the naive depth returns to zero there despite the nested inner pair —
and not the file end. -/
theorem extract_blocks_extent_witness :
    ("A", "struct A: View \x7b f \x7b g \x7d h \x7d")
      ∈ extract_blocks "struct A: View \x7b f \x7b g \x7d h \x7d tail".data [⟨"A", 0, 16⟩] ∧
    find_matching_brace "struct A: View \x7b f \x7b g \x7d h \x7d tail".data 15 = 27 := by
  have h := (extract_blocks_extent "struct A: View \x7b f \x7b g \x7d h \x7d tail".data
    [⟨"A", 0, 16⟩] ⟨"A", 0, 16⟩ (List.mem_cons_self _ _)).2 15 (by decide)
  exact ⟨h.2.1, rfl⟩

/-!  ## Claim C4: the raw fallback  -/

/-- C4 counterexample.  A whitespace-only file produces no view-block,
screen-card, controller-block, accessibility-map or navigation-signals
chunk, yet the builder produces zero chunks — not exactly one raw-fallback
chunk — because the fallback is guarded by `if raw:` on the stripped text. -/
theorem raw_fallback_missing_for_blank_file :
    build_chunks_for_file " \n\t " "Blank.swift" = [] ∧
    preChunks " \n\t " "Blank.swift" = [] := by
  constructor <;> rfl

/-- C4 (amended).  For every file whose chunk-building pass produced no
view-block, screen-card, controller-block, accessibility-map or
navigation-signals chunk and whose trimmed text is non-empty, exactly one
raw-fallback chunk is produced, its text the first 4000 characters of the
trimmed file text (so at most 4000 characters); a whitespace-only file
produces no chunk at all; and whenever any other chunk was produced, no
raw-fallback chunk is produced. -/
theorem raw_fallback_exactly_one (file_text rel_path : String) :
    (preChunks file_text rel_path = [] → py_strip file_text ≠ "" →
      build_chunks_for_file file_text rel_path =
        [⟨pyTake (py_strip file_text) 4000,
          [("kind", JVal.str "swift_raw"), ("path", JVal.str rel_path)]⟩] ∧
      (pyTake (py_strip file_text) 4000).length ≤ 4000) ∧
    (preChunks file_text rel_path = [] → py_strip file_text = "" →
      build_chunks_for_file file_text rel_path = []) ∧
    (preChunks file_text rel_path ≠ [] →
      build_chunks_for_file file_text rel_path = preChunks file_text rel_path ∧
      ∀ ch ∈ build_chunks_for_file file_text rel_path,
        metaIsStr ch.meta "kind" "swift_raw" = false) := by
  refine ⟨?_, ?_, ?_⟩
  · intro hpre hraw
    unfold build_chunks_for_file
    rw [hpre]
    simp only [List.isEmpty_nil, if_true]
    constructor
    · unfold rawFallbackChunks
      rw [if_neg hraw]
    · show ((py_strip file_text).data.take 4000).asString.length ≤ 4000
      have : ((py_strip file_text).data.take 4000).asString.length
          = ((py_strip file_text).data.take 4000).length := rfl
      rw [this]
      exact le_trans (List.length_take_le _ _) (le_refl 4000)
  · intro hpre hraw
    unfold build_chunks_for_file
    rw [hpre]
    simp only [List.isEmpty_nil, if_true]
    unfold rawFallbackChunks
    rw [if_pos hraw]
  · intro hpre
    have hb : build_chunks_for_file file_text rel_path = preChunks file_text rel_path := by
      unfold build_chunks_for_file
      rw [if_neg (by simpa [List.isEmpty_iff] using hpre)]
    refine ⟨hb, ?_⟩
    rw [hb]
    intro ch hch
    unfold preChunks at hch
    simp only [List.mem_append] at hch
    rcases hch with ((hv | hu) | ha) | hn
    · obtain ⟨nb, -, hin⟩ := List.mem_flatMap.1 hv
      unfold viewChunkPair at hin
      simp only [List.mem_cons, List.not_mem_nil, or_false] at hin
      rcases hin with rfl | rfl <;> rfl
    · obtain ⟨nb, -, hin⟩ := List.mem_flatMap.1 hu
      unfold vcChunkPair at hin
      simp only [List.mem_cons, List.not_mem_nil, or_false] at hin
      rcases hin with rfl | rfl <;> rfl
    · unfold amapChunks at ha
      by_cases hids : (fileA11yIds file_text).isEmpty
      · rw [if_pos hids] at ha
        cases ha
      · rw [if_neg hids] at ha
        simp only [List.mem_cons, List.not_mem_nil, or_false] at ha
        rw [ha]
        rfl
    · unfold navChunks at hn
      by_cases hls : (navLines file_text).isEmpty
      · rw [if_pos hls] at hn
        cases hn
      · rw [if_neg hls] at hn
        simp only [List.mem_cons, List.not_mem_nil, or_false] at hn
        rw [hn]
        rfl

/-- Witness for C4: the construct-free, marker-free, navigation-free file
`"let x = 1"` yields exactly the one raw chunk with its own (short, hence
untruncated) text. -/
theorem raw_fallback_exactly_one_witness :
    build_chunks_for_file "let x = 1" "Util.swift" =
      [⟨"let x = 1", [("kind", JVal.str "swift_raw"), ("path", JVal.str "Util.swift")]⟩] := by
  have h := (raw_fallback_exactly_one "let x = 1" "Util.swift").1 rfl (by decide)
  exact h.1.trans (by rfl)

/-!  ## Claim C2: the fail-fast gate  -/

/-- C2.  For every ingestion invocation with the fail-fast flag enabled
whose audit produces a non-empty finding set, ingestion returns the
distinguished non-zero exit status 3, performs zero writes to the
retrieval store, and reports the finding example list capped at 20
entries. -/
theorem fail_fast_aborts_before_write (files : List (String × String))
    (hf : 0 < ((audit_accessibility (ingestChunks files)).1).length) :
    (cmd_ingest files true).exitCode = 3 ∧
    (cmd_ingest files true).exitCode ≠ 0 ∧
    (cmd_ingest files true).upserted = [] ∧
    (cmd_ingest files true).failExamples
      = some (((audit_accessibility (ingestChunks files)).1).take 20) ∧
    ∀ ex, (cmd_ingest files true).failExamples = some ex → ex.length ≤ 20 := by
  have hne : files.isEmpty = false := by
    cases files with
    | nil => exact absurd hf (by simp [ingestChunks, audit_accessibility])
    | cons a l => rfl
  have hout : cmd_ingest files true
      = ⟨3, [], some (((audit_accessibility (ingestChunks files)).1).take 20)⟩ := by
    unfold cmd_ingest
    split
    · rename_i hemp
      rw [hne] at hemp
      exact Bool.noConfusion hemp
    · dsimp only
      split
      · rfl
      · rename_i hcond
        exact absurd ⟨by trivial, hf⟩ hcond
  rw [hout]
  refine ⟨rfl, by show (3 : Nat) ≠ 0; omega, rfl, rfl, ?_⟩
  intro ex hex
  injection hex with hex
  rw [← hex]
  exact le_trans (List.length_take_le _ _) (le_refl 20)

/-- Witness for C2: a directory with one screen that has an interactive
control and no accessibility identifier, ingested with fail-fast on,
exits 3 having written nothing. -/
theorem fail_fast_aborts_before_write_witness :
    (cmd_ingest [("A.swift", "struct A: View \x7b Button(\"hi\") \x7d")] true).exitCode = 3 ∧
    (cmd_ingest [("A.swift", "struct A: View \x7b Button(\"hi\") \x7d")] true).upserted = [] := by
  have h := fail_fast_aborts_before_write
    [("A.swift", "struct A: View \x7b Button(\"hi\") \x7d")] (by decide)
  exact ⟨h.1, h.2.2.1⟩

/-!  ## Claim C10: the always-written audit summary  -/

/-- C10 counterexample.  An ingestion run that finds no Swift files is not
aborted by the fail-fast gate (the gate is never reached), yet it writes
nothing at all — in particular not the audit-summary document — returning
exit status 2, so the documents-upserted count (0) is not the per-file
chunk count plus one (1). -/
theorem ingest_no_files_writes_nothing :
    (cmd_ingest [] false).upserted.length = 0 ∧
    (ingestChunks []).length + 1 = 1 ∧
    (cmd_ingest [] false).exitCode = 2 ∧
    (cmd_ingest [] false).exitCode ≠ 3 := by
  refine ⟨rfl, rfl, rfl, by decide⟩

/-- C10 (amended).  On every ingestion run that finds at least one Swift
file and is not aborted by the fail-fast gate, exactly one audit-summary
document — kind `accessibility_audit`, path `"_audit_"`, flagged list
capped at 200 findings — is upserted in addition to all per-file chunks,
even when the finding set is empty, so the documents-upserted count equals
the per-file chunk count plus one. -/
theorem ingest_writes_audit_doc (files : List (String × String)) (ff : Bool)
    (hne : files ≠ [])
    (hgate : ¬ (ff = true ∧ 0 < ((audit_accessibility (ingestChunks files)).1).length)) :
    (cmd_ingest files ff).exitCode = 0 ∧
    (cmd_ingest files ff).upserted
      = audit_doc ((audit_accessibility (ingestChunks files)).1)
        :: (ingestChunks files).map (fun ch => RagDoc.mk ch.text ch.meta) ∧
    (cmd_ingest files ff).upserted.length = (ingestChunks files).length + 1 ∧
    ((cmd_ingest files ff).upserted.head?.map RagDoc.metadata)
      = some [("kind", JVal.str "accessibility_audit"), ("path", JVal.str "_audit_")] ∧
    (audit_doc ((audit_accessibility (ingestChunks files)).1)).page_content
      = safe_json (auditSummaryJson ((audit_accessibility (ingestChunks files)).1)) ∧
    auditSummaryJson ((audit_accessibility (ingestChunks files)).1)
      = JVal.obj [("type", .str "ACCESSIBILITY_AUDIT"),
          ("summary", .obj
            [("flagged_screens",
              .int ((audit_accessibility (ingestChunks files)).1).length),
             ("note", .str auditNote)]),
          ("flagged", .arr
            ((((audit_accessibility (ingestChunks files)).1).take 200).map findingJson)),
          ("total_flagged",
            .int ((audit_accessibility (ingestChunks files)).1).length)] ∧
    (((audit_accessibility (ingestChunks files)).1).take 200).length ≤ 200 := by
  have hnl : files.isEmpty = false := by
    cases files with
    | nil => exact absurd rfl hne
    | cons a l => rfl
  have hout : cmd_ingest files ff
      = ⟨0, audit_doc ((audit_accessibility (ingestChunks files)).1)
          :: (ingestChunks files).map (fun ch => RagDoc.mk ch.text ch.meta), none⟩ := by
    unfold cmd_ingest
    split
    · rename_i hemp
      rw [hnl] at hemp
      exact Bool.noConfusion hemp
    · dsimp only
      split
      · rename_i hcond
        exact absurd hcond hgate
      · rfl
  rw [hout]
  refine ⟨rfl, rfl, by simp, rfl, rfl, rfl,
    le_trans (List.length_take_le _ _) (le_refl 200)⟩

/-- Witness for C10: one flag-free file, fail-fast off: exit 0, the audit
document plus the file's two chunks — three documents, chunk count plus
one. -/
theorem ingest_writes_audit_doc_witness :
    (cmd_ingest [("A.swift", "struct A: View \x7b Text(\"x\").accessibilityIdentifier(\"t\") \x7d")]
        false).exitCode = 0 ∧
    (cmd_ingest [("A.swift", "struct A: View \x7b Text(\"x\").accessibilityIdentifier(\"t\") \x7d")]
        false).upserted.length = 4 := by
  have h := ingest_writes_audit_doc
    [("A.swift", "struct A: View \x7b Text(\"x\").accessibilityIdentifier(\"t\") \x7d")] false
    (List.cons_ne_nil _ _) (by simp)
  refine ⟨h.1, ?_⟩
  rw [h.2.2.1]
  rfl

/-!  ## Claim C5: deterministic storage identifiers  -/

/-- C5 counterexample.  "Changed content always yields a changed
identifier" is false as stated: the identifier is a 160-bit SHA-1 digest,
so by pigeonhole there exist two distinct contents (here, among the runs
of `'a'` of lengths `0 .. 2^160`) whose documents, with identical
metadata, receive the same identifier. -/
theorem doc_id_collision_exists :
    ¬ (∀ (c1 c2 : String) (m : List (String × JVal)), c1 ≠ c2 →
        doc_id ⟨c1, m⟩ ≠ doc_id ⟨c2, m⟩) := by
  intro hinj
  have hcard : Fintype.card (Fin (2 ^ 160)) < Fintype.card (Fin (2 ^ 160 + 1)) := by
    rw [Fintype.card_fin, Fintype.card_fin]
    exact Nat.lt_succ_self _
  obtain ⟨a, b, hab, heq⟩ := Fintype.exists_ne_map_eq_of_card_lt
    (fun i : Fin (2 ^ 160 + 1) =>
      (⟨sha1Nat ((List.replicate i.1 'a').asString ++ safe_json (.obj [])),
        sha1Nat_lt _⟩ : Fin (2 ^ 160)))
    hcard
  have hnat : sha1Nat ((List.replicate a.1 'a').asString ++ safe_json (.obj []))
      = sha1Nat ((List.replicate b.1 'a').asString ++ safe_json (.obj [])) :=
    congrArg Fin.val heq
  have hcontent : (List.replicate a.1 'a').asString ≠ (List.replicate b.1 'a').asString := by
    intro hc
    apply hab
    have hlen : (List.replicate a.1 'a').length = (List.replicate b.1 'a').length := by
      have : ((List.replicate a.1 'a').asString).data = ((List.replicate b.1 'a').asString).data :=
        congrArg String.data hc
      simpa [List.asString] using congrArg List.length this
    exact Fin.ext (by simpa using hlen)
  refine hinj _ _ [] hcontent ?_
  show sha1 _ = sha1 _
  unfold sha1
  rw [hnat]

/-- C5 (amended).  The storage identifier computed by upsert is a
deterministic function of a document's content plus its serialized
metadata: any two documents (in any two runs) with byte-identical content
and identical metadata receive equal identifiers — so re-ingesting
unchanged chunks yields identical identifiers and no duplicate growth —
and the identifier list of an upsert is exactly the per-document hash,
in order.  (Changed content yields a changed identifier only up to SHA-1
collisions; see the counterexample.) -/
theorem doc_id_deterministic (d1 d2 : RagDoc)
    (hc : d1.page_content = d2.page_content) (hm : d1.metadata = d2.metadata) :
    doc_id d1 = doc_id d2 ∧
    (∀ docs : List RagDoc, upsert_ids docs = docs.map doc_id) ∧
    (∀ docs : List RagDoc, upsert_ids docs = upsert_ids docs) := by
  refine ⟨?_, fun _ => rfl, fun _ => rfl⟩
  unfold doc_id
  rw [hc, hm]

/-- Witness for C5: two separately-constructed documents with the same
content and metadata receive the same identifier. -/
theorem doc_id_deterministic_witness :
    doc_id ⟨"struct A: View", [("kind", JVal.str "swiftui_view")]⟩
      = doc_id ⟨"struct A: View", [("kind", JVal.str "swiftui_view")]⟩ :=
  (doc_id_deterministic ⟨"struct A: View", [("kind", JVal.str "swiftui_view")]⟩
    ⟨"struct A: View", [("kind", JVal.str "swiftui_view")]⟩ rfl rfl).1

/-!  ## Sortedness infrastructure for `sortedSet`  -/

theorem charListLe_refl : ∀ as, charListLe as as = true
  | [] => rfl
  | a :: as => by
    unfold charListLe
    rw [if_neg (by omega), if_neg (by omega)]
    exact charListLe_refl as

theorem charListLe_total : ∀ as bs, charListLe as bs = true ∨ charListLe bs as = true
  | [], _ => Or.inl rfl
  | _ :: _, [] => Or.inr rfl
  | a :: as, b :: bs => by
    unfold charListLe
    by_cases hab : a.toNat < b.toNat
    · exact Or.inl (by rw [if_pos hab])
    · by_cases hba : b.toNat < a.toNat
      · exact Or.inr (by rw [if_pos hba])
      · rw [if_neg hab, if_neg hba, if_neg hba, if_neg hab]
        exact charListLe_total as bs

theorem charListLe_trans : ∀ as bs cs, charListLe as bs = true →
    charListLe bs cs = true → charListLe as cs = true
  | [], _, _, _, _ => rfl
  | _ :: _, [], _, h, _ => by cases h
  | _ :: _, _ :: _, [], _, h2 => by cases h2
  | a :: as, b :: bs, c :: cs, h1, h2 => by
    unfold charListLe at h1 h2 ⊢
    by_cases hab : a.toNat < b.toNat
    · rw [if_pos hab] at h1
      by_cases hbc : b.toNat < c.toNat
      · rw [if_pos (show a.toNat < c.toNat by omega)]
      · by_cases hcb : c.toNat < b.toNat
        · rw [if_neg hbc, if_pos hcb] at h2
          cases h2
        · rw [if_pos (show a.toNat < c.toNat by omega)]
    · rw [if_neg hab] at h1
      by_cases hba : b.toNat < a.toNat
      · rw [if_pos hba] at h1
        cases h1
      · rw [if_neg hba] at h1
        by_cases hbc : b.toNat < c.toNat
        · rw [if_pos (show a.toNat < c.toNat by omega)]
        · by_cases hcb : c.toNat < b.toNat
          · rw [if_neg hbc, if_pos hcb] at h2
            cases h2
          · rw [if_neg hbc, if_neg hcb] at h2
            rw [if_neg (show ¬ a.toNat < c.toNat by omega),
              if_neg (show ¬ c.toNat < a.toNat by omega)]
            exact charListLe_trans as bs cs h1 h2

theorem pyStrLe_total (s t : String) : pyStrLe s t = true ∨ pyStrLe t s = true :=
  charListLe_total s.data t.data

theorem pyStrLe_trans (s t u : String) (h1 : pyStrLe s t = true)
    (h2 : pyStrLe t u = true) : pyStrLe s u = true :=
  charListLe_trans s.data t.data u.data h1 h2

/-- Sortedness in the (Python) code-point order. -/
def SortedPy (l : List String) : Prop :=
  List.Pairwise (fun a b => pyStrLe a b = true) l

theorem mem_insertSorted (x : String) (l : List String) :
    ∀ z, z ∈ insertSorted x l ↔ z = x ∨ z ∈ l := by
  induction l with
  | nil => intro z; simp [insertSorted]
  | cons y ys ih =>
    intro z
    rw [insertSorted]
    by_cases hxy : pyStrLe x y = true
    · rw [if_pos hxy]
      simp [List.mem_cons]
    · rw [if_neg hxy]
      simp only [List.mem_cons, ih z]
      tauto

theorem insertSorted_sorted (x : String) (l : List String) (h : SortedPy l) :
    SortedPy (insertSorted x l) := by
  induction l with
  | nil => simp [insertSorted, SortedPy]
  | cons y ys ih =>
    rw [insertSorted]
    by_cases hxy : pyStrLe x y = true
    · rw [if_pos hxy]
      refine List.Pairwise.cons ?_ h
      intro z hz
      rcases List.mem_cons.mp hz with rfl | hz2
      · exact hxy
      · exact pyStrLe_trans x y z hxy ((List.pairwise_cons.mp h).1 z hz2)
    · rw [if_neg hxy]
      have hyx : pyStrLe y x = true := (pyStrLe_total x y).resolve_left hxy
      refine List.Pairwise.cons ?_ (ih (List.pairwise_cons.mp h).2)
      intro z hz
      rcases (mem_insertSorted x ys z).mp hz with rfl | hz2
      · exact hyx
      · exact (List.pairwise_cons.mp h).1 z hz2

theorem insertSorted_nodup (x : String) (l : List String) (h : l.Nodup)
    (hx : x ∉ l) : (insertSorted x l).Nodup := by
  induction l with
  | nil => simp [insertSorted]
  | cons y ys ih =>
    rw [insertSorted]
    rw [List.nodup_cons] at h
    by_cases hxy : pyStrLe x y = true
    · rw [if_pos hxy]
      exact List.Nodup.cons hx (List.Nodup.cons h.1 h.2)
    · rw [if_neg hxy]
      refine List.Nodup.cons ?_ (ih h.2 (fun hmem => hx (List.mem_cons_of_mem y hmem)))
      intro hmem
      rcases (mem_insertSorted x ys y).mp hmem with rfl | hmem2
      · exact hx (List.mem_cons_self y ys)
      · exact h.1 hmem2

theorem mem_insertionSortPy (l : List String) :
    ∀ z, z ∈ insertionSortPy l ↔ z ∈ l := by
  induction l with
  | nil => intro z; rfl
  | cons x xs ih =>
    intro z
    rw [insertionSortPy, mem_insertSorted, ih z, List.mem_cons]

theorem insertionSortPy_sorted (l : List String) : SortedPy (insertionSortPy l) := by
  induction l with
  | nil => simp [insertionSortPy, SortedPy]
  | cons x xs ih => exact insertSorted_sorted x _ ih

theorem insertionSortPy_nodup (l : List String) (h : l.Nodup) :
    (insertionSortPy l).Nodup := by
  induction l with
  | nil => simp [insertionSortPy]
  | cons x xs ih =>
    rw [List.nodup_cons] at h
    rw [insertionSortPy]
    exact insertSorted_nodup x _ (ih h.2) (fun hm => h.1 ((mem_insertionSortPy xs x).mp hm))

theorem mem_dedupPy (l : List String) : ∀ z, z ∈ dedupPy l ↔ z ∈ l := by
  induction l with
  | nil => intro z; rfl
  | cons x xs ih =>
    intro z
    rw [dedupPy]
    by_cases h : x ∈ dedupPy xs
    · rw [if_pos h, ih z, List.mem_cons]
      constructor
      · exact Or.inr
      · rintro (rfl | hz)
        · exact (ih z).mp h
        · exact hz
    · rw [if_neg h]
      rw [List.mem_cons, ih z, List.mem_cons]

theorem nodup_dedupPy (l : List String) : (dedupPy l).Nodup := by
  induction l with
  | nil => exact List.nodup_nil
  | cons x xs ih =>
    rw [dedupPy]
    by_cases h : x ∈ dedupPy xs
    · rw [if_pos h]; exact ih
    · rw [if_neg h]; exact List.Nodup.cons h ih

theorem mem_sortedSet (l : List String) (z : String) : z ∈ sortedSet l ↔ z ∈ l := by
  unfold sortedSet
  rw [mem_insertionSortPy, mem_dedupPy]

theorem sortedSet_sorted (l : List String) : SortedPy (sortedSet l) :=
  insertionSortPy_sorted _

theorem sortedSet_nodup (l : List String) : (sortedSet l).Nodup :=
  insertionSortPy_nodup _ (nodup_dedupPy l)

/-!  ## Claim C6: context assembly bounds  -/

theorem mem_docIdsList (d : RagDoc) (x : String) :
    x ∈ docIdsList d ↔
      ∃ v, metaGet d.metadata "accessibility_ids" = some (.str v) ∧ v ≠ "" ∧
        x ∈ pySplitPipe v := by
  unfold docIdsList
  cases h : metaGet d.metadata "accessibility_ids" with
  | none => simp [h]
  | some v =>
    cases v with
    | str v =>
      dsimp only
      by_cases hv : v = ""
      · subst hv
        simp
      · rw [if_neg hv]
        constructor
        · intro hx
          exact ⟨v, rfl, hv, hx⟩
        · rintro ⟨w, hw, -, hx⟩
          injection hw with hw
          cases hw
          exact hx
    | int n => simp
    | bool b => simp
    | arr xs => simp
    | obj fs => simp

theorem mem_docScreenList (d : RagDoc) (x : String) :
    x ∈ docScreenList d ↔
      metaGet d.metadata "screen" = some (.str x) ∧ x ≠ "" := by
  unfold docScreenList
  cases h : metaGet d.metadata "screen" with
  | none => simp [h]
  | some v =>
    cases v with
    | str v =>
      dsimp only
      by_cases hv : v = ""
      · subst hv
        simp
        exact fun hx => hx.symm
      · rw [if_neg hv]
        simp only [List.mem_singleton]
        constructor
        · rintro rfl
          exact ⟨rfl, hv⟩
        · rintro ⟨hw, -⟩
          injection hw with hw
          injection hw with hw
          exact hw.symm
    | int n => simp
    | bool b => simp
    | arr xs => simp
    | obj fs => simp

/-- C6.  For every ranked document list, the assembled ContextBundle has at
most 5 snippets; every snippet has content truncated to at most 500
characters, comes from a document whose kind is on the allow-list
`swiftui_view` / `accessibility_map` / `screen_card`, and only such
documents contribute; the accessibility-identifier list is the sorted
deduplicated union of the split `accessibility_ids` fields; the screen
list is the sorted deduplicated union of the non-empty `screen` fields;
and the retrieved-document count is the list length. -/
theorem context_bundle_bounds (docs : List RagDoc) :
    (query_rag_bundle docs).code_snippets.length ≤ 5 ∧
    (∀ sn ∈ (query_rag_bundle docs).code_snippets,
        sn.content.length ≤ 500 ∧
        (sn.kind = "swiftui_view" ∨ sn.kind = "accessibility_map" ∨
          sn.kind = "screen_card") ∧
        ∃ d ∈ docs, snippetOf d = some sn ∧ sn.content = pyTake d.page_content 500) ∧
    SortedPy (query_rag_bundle docs).accessibility_ids ∧
    (query_rag_bundle docs).accessibility_ids.Nodup ∧
    (∀ x, x ∈ (query_rag_bundle docs).accessibility_ids ↔
        ∃ d ∈ docs, ∃ v, metaGet d.metadata "accessibility_ids" = some (.str v) ∧
          v ≠ "" ∧ x ∈ pySplitPipe v) ∧
    SortedPy (query_rag_bundle docs).screens ∧
    (query_rag_bundle docs).screens.Nodup ∧
    (∀ x, x ∈ (query_rag_bundle docs).screens ↔
        ∃ d ∈ docs, metaGet d.metadata "screen" = some (.str x) ∧ x ≠ "") ∧
    (query_rag_bundle docs).total_docs_retrieved = docs.length := by
  refine ⟨?_, ?_, sortedSet_sorted _, sortedSet_nodup _, ?_, sortedSet_sorted _,
    sortedSet_nodup _, ?_, rfl⟩
  · show ((docs.filterMap snippetOf).take 5).length ≤ 5
    rw [List.length_take]
    exact min_le_left _ _
  · intro sn hsn
    have hsn2 : sn ∈ docs.filterMap snippetOf :=
      List.take_subset 5 _ hsn
    obtain ⟨d, hd, hmk⟩ := List.mem_filterMap.mp hsn2
    have hget : snippetOf d = some sn := hmk
    unfold snippetOf at hmk
    dsimp only at hmk
    split at hmk
    · rename_i hkind
      injection hmk with hmk
      subst hmk
      refine ⟨?_, hkind, d, hd, hget, rfl⟩
      show ((d.page_content.data.take 500).asString).length ≤ 500
      have : ((d.page_content.data.take 500).asString).length
          = (d.page_content.data.take 500).length := rfl
      rw [this]
      exact List.length_take_le _ _
    · cases hmk
  · intro x
    show x ∈ sortedSet (docs.flatMap docIdsList) ↔ _
    rw [mem_sortedSet, List.mem_flatMap]
    constructor
    · rintro ⟨d, hd, hx⟩
      exact ⟨d, hd, (mem_docIdsList d x).mp hx⟩
    · rintro ⟨d, hd, hx⟩
      exact ⟨d, hd, (mem_docIdsList d x).mpr hx⟩
  · intro x
    show x ∈ sortedSet (docs.flatMap docScreenList) ↔ _
    rw [mem_sortedSet, List.mem_flatMap]
    constructor
    · rintro ⟨d, hd, hx⟩
      exact ⟨d, hd, (mem_docScreenList d x).mp hx⟩
    · rintro ⟨d, hd, hx⟩
      exact ⟨d, hd, (mem_docScreenList d x).mpr hx⟩

/-- Witness for C6: a single stored view-block document with a two-entry
delimiter-joined identifier field yields the sorted split identifiers, a
snippet list within bounds, and a snippet content within 500 characters. -/
theorem context_bundle_bounds_witness :
    (query_rag_bundle [⟨"abcdef", [("kind", JVal.str "swiftui_view"),
        ("accessibility_ids", JVal.str "b|a"), ("screen", JVal.str "S")]⟩]).accessibility_ids
      = ["a", "b"] ∧
    (query_rag_bundle [⟨"abcdef", [("kind", JVal.str "swiftui_view"),
        ("accessibility_ids", JVal.str "b|a"), ("screen", JVal.str "S")]⟩]).code_snippets.length
      ≤ 5 ∧
    (⟨"swiftui_view", "", "S", "abcdef"⟩ : Snippet).content.length ≤ 500 := by
  have h := context_bundle_bounds [⟨"abcdef", [("kind", JVal.str "swiftui_view"),
    ("accessibility_ids", JVal.str "b|a"), ("screen", JVal.str "S")]⟩]
  refine ⟨rfl, h.1, ?_⟩
  have hm := (h.2.1 ⟨"swiftui_view", "", "S", "abcdef"⟩ (by
    show _ ∈ ((_ : List RagDoc).filterMap snippetOf).take 5
    exact List.mem_cons_self _ _))
  exact hm.1

/-!  ## Claim C7: graceful degradation of retrieval  -/

/-- C7.  If reaching or searching the store fails, context assembly yields
the bundle with empty identifier, screen and snippet lists, zero retrieved
documents, and the error string attached (the failure is never
propagated — `query_rag` is total); a query answered by an empty store
yields the all-empty bundle with no error and no exception. -/
theorem query_rag_graceful (e : String) :
    query_rag (.error e) = ⟨[], [], [], 0, some e⟩ ∧
    query_rag (.ok []) = ⟨[], [], [], 0, none⟩ := by
  exact ⟨rfl, rfl⟩

/-- Witness for C7: a concrete store failure string is attached to an
otherwise empty bundle, and the empty store yields the empty bundle. -/
theorem query_rag_graceful_witness :
    (query_rag (.error "store unreachable")).total_docs_retrieved = 0 ∧
    (query_rag (.error "store unreachable")).error = some "store unreachable" ∧
    (query_rag (.ok [])).accessibility_ids = [] ∧
    (query_rag (.ok [])).error = none := by
  have h := query_rag_graceful "store unreachable"
  rw [h.1, h.2]
  exact ⟨rfl, rfl, rfl, rfl⟩

/-!  ## Claim C8: per-file chunk emission order  -/

/-- Claim-side: metadata record of one view-block chunk. -/
def viewBlockMetaSpec (rel_path : String) (nb : String × String) : List (String × JVal) :=
  [("kind", .str "swiftui_view"), ("path", .str rel_path),
   ("screen", .str nb.1), ("symbol", .str nb.1),
   ("accessibility_ids", .str (meta_list_to_str (sortedSet (swiftuiA11yFindall nb.2)) 200)),
   ("accessibility_id_count", .int (sortedSet (swiftuiA11yFindall nb.2)).length),
   ("buttons", .str (meta_list_to_str ((sortedSet (swiftuiButtonFindall nb.2)).take 50) 200)),
   ("button_count", .int (sortedSet (swiftuiButtonFindall nb.2)).length),
   ("navigation_signals", .int (navHitCount nb.2))]

/-- Claim-side: the screen-card record of one view block, in its canonical
key order. -/
def viewCardJsonSpec (rel_path : String) (nb : String × String) : JVal :=
  .obj [("type", .str "SCREEN_CARD"), ("ui", .str "SwiftUI"),
    ("screen", .str nb.1), ("path", .str rel_path),
    ("buttons", .arr (((sortedSet (swiftuiButtonFindall nb.2)).take 50).map .str)),
    ("accessibility_ids", .arr (((sortedSet (swiftuiA11yFindall nb.2)).take 200).map .str)),
    ("has_navigation_signals", .bool (decide (navHitCount nb.2 ≠ 0)))]

/-- Claim-side: metadata record of one view-controller-block chunk. -/
def vcBlockMetaSpec (rel_path : String) (nb : String × String) : List (String × JVal) :=
  [("kind", .str "uikit_viewcontroller"), ("path", .str rel_path),
   ("screen", .str nb.1), ("symbol", .str nb.1),
   ("accessibility_ids", .str (meta_list_to_str (sortedSet (uikitA11yFindall nb.2)) 200)),
   ("accessibility_id_count", .int (sortedSet (uikitA11yFindall nb.2)).length),
   ("navigation_signals", .int (navHitCount nb.2))]

/-- Claim-side: the screen-card record of one view-controller block. -/
def vcCardJsonSpec (rel_path : String) (nb : String × String) : JVal :=
  .obj [("type", .str "SCREEN_CARD"), ("ui", .str "UIKit"),
    ("screen", .str nb.1), ("path", .str rel_path),
    ("accessibility_ids", .arr (((sortedSet (uikitA11yFindall nb.2)).take 200).map .str)),
    ("has_navigation_signals", .bool (decide (navHitCount nb.2 ≠ 0)))]

/-- C8 counterexample.  The navigation-signals chunk does not carry the
matching lines verbatim: each collected line is stripped of surrounding
whitespace.  For a file whose only matching line is the indented
`"    present(x)"`, the produced chunk's text carries `"present(x)"` and
differs from the text the claim prescribes. -/
theorem nav_chunk_lines_stripped :
    build_chunks_for_file "func f() \x7b\n    present(x)\n\x7d" "P.swift"
      = [⟨"NAVIGATION_SIGNALS\npath: P.swift\npresent(x)",
          [("kind", JVal.str "navigation_signals"), ("path", JVal.str "P.swift")]⟩] ∧
    (splitlinesAux [] "func f() \x7b\n    present(x)\n\x7d".data).get? 1
      = some "    present(x)".data ∧
    "NAVIGATION_SIGNALS\npath: P.swift\npresent(x)"
      ≠ "NAVIGATION_SIGNALS\npath: P.swift\n    present(x)" := by
  refine ⟨rfl, rfl, by decide⟩

/-- C8 (amended).  For every file, the chunk builder emits, in this exact
order: for each view block a view-block chunk immediately followed by its
screen-card chunk (the card text being the canonical key-ordered
serialization of the block's facts); then for each controller block a
controller-block chunk immediately followed by its screen-card chunk; then
at most one accessibility-map chunk, present iff the union of
accessibility identifiers found anywhere in the raw file text is
non-empty, listing the path and each identifier; then at most one
navigation-signals chunk, present iff at least one line of the file
matches a navigation-trigger pattern, whose text is the path plus up to 60
matching lines, each trimmed of surrounding whitespace. -/
theorem build_chunks_order (file_text rel_path : String)
    (hpre : preChunks file_text rel_path ≠ []) :
    build_chunks_for_file file_text rel_path =
      (extract_blocks file_text.data (swiftuiViewMatches file_text)).flatMap
          (viewChunkPair rel_path)
        ++ (extract_blocks file_text.data (uikitVCMatches file_text)).flatMap
          (vcChunkPair rel_path)
        ++ amapChunks file_text rel_path
        ++ navChunks file_text rel_path ∧
    (∀ nb : String × String,
      viewChunkPair rel_path nb =
        [⟨nb.2, viewBlockMetaSpec rel_path nb⟩,
         ⟨safe_json (viewCardJsonSpec rel_path nb),
          withKindScreenCard (viewBlockMetaSpec rel_path nb)⟩]) ∧
    (∀ nb : String × String,
      vcChunkPair rel_path nb =
        [⟨nb.2, vcBlockMetaSpec rel_path nb⟩,
         ⟨safe_json (vcCardJsonSpec rel_path nb),
          withKindScreenCard (vcBlockMetaSpec rel_path nb)⟩]) ∧
    (amapChunks file_text rel_path).length ≤ 1 ∧
    (amapChunks file_text rel_path ≠ [] ↔ fileA11yIds file_text ≠ []) ∧
    (∀ c ∈ amapChunks file_text rel_path,
      c.text = "ACCESSIBILITY_IDS\npath: " ++ rel_path ++ "\n"
        ++ String.intercalate "\n" (fileA11yIds file_text) ∧
      metaIsStr c.meta "kind" "accessibility_map" = true) ∧
    (navChunks file_text rel_path).length ≤ 1 ∧
    (navChunks file_text rel_path ≠ [] ↔
      ∃ l ∈ splitlinesAux [] file_text.data,
        NAV_PATTERNS.any (fun p => navSearchList p l) = true) ∧
    (∀ c ∈ navChunks file_text rel_path,
      c.text = "NAVIGATION_SIGNALS\npath: " ++ rel_path ++ "\n"
        ++ String.intercalate "\n" (navLines file_text) ∧
      metaIsStr c.meta "kind" "navigation_signals" = true) ∧
    (navLines file_text).length ≤ 60 ∧
    navLines file_text =
      (((splitlinesAux [] file_text.data).filter
          (fun l => NAV_PATTERNS.any (fun p => navSearchList p l))).map
        (fun l => (pyStripList l).asString)).take 60 := by
  refine ⟨?_, fun nb => rfl, fun nb => rfl, ?_, ?_, ?_, ?_, ?_, ?_, ?_, rfl⟩
  · unfold build_chunks_for_file
    rw [if_neg (by simpa [List.isEmpty_iff] using hpre)]
    rfl
  · unfold amapChunks
    dsimp only
    split <;> simp
  · unfold amapChunks
    dsimp only
    by_cases h : (fileA11yIds file_text).isEmpty
    · rw [if_pos h]
      rw [List.isEmpty_iff] at h
      simp [h]
    · rw [if_neg h]
      have hne : fileA11yIds file_text ≠ [] :=
        fun hnil => h (by rw [List.isEmpty_iff]; exact hnil)
      constructor
      · intro _
        exact hne
      · intro _
        exact List.cons_ne_nil _ _
  · intro c hc
    unfold amapChunks at hc
    dsimp only at hc
    split at hc
    · cases hc
    · simp only [List.mem_cons, List.not_mem_nil, or_false] at hc
      rw [hc]
      exact ⟨rfl, rfl⟩
  · unfold navChunks
    dsimp only
    split <;> simp
  · unfold navChunks
    dsimp only
    by_cases h : (navLines file_text).isEmpty
    · rw [if_pos h]
      rw [List.isEmpty_iff] at h
      constructor
      · intro hne
        exact absurd rfl hne
      · rintro ⟨l, hl, hp⟩
        exfalso
        have hmem : l ∈ (splitlinesAux [] file_text.data).filter
            (fun l => NAV_PATTERNS.any (fun p => navSearchList p l)) :=
          List.mem_filter.mpr ⟨hl, hp⟩
        have hfil : (splitlinesAux [] file_text.data).filter
            (fun l => NAV_PATTERNS.any (fun p => navSearchList p l)) ≠ [] :=
          List.ne_nil_of_mem hmem
        have hnl : navLines file_text ≠ [] := by
          unfold navLines
          intro htake
          rcases List.take_eq_nil_iff.mp htake with h60 | hmap
          · cases h60
          · exact hfil (List.map_eq_nil_iff.mp hmap)
        exact hnl h
    · rw [if_neg h]
      have hnlne : navLines file_text ≠ [] :=
        fun hnil => h (by rw [List.isEmpty_iff]; exact hnil)
      constructor
      · intro _
        have hne := hnlne
        unfold navLines at hne
        have hfil : (splitlinesAux [] file_text.data).filter
            (fun l => NAV_PATTERNS.any (fun p => navSearchList p l)) ≠ [] := by
          intro hf
          exact hne (by rw [hf]; rfl)
        obtain ⟨l, hl⟩ := List.exists_mem_of_ne_nil _ hfil
        exact ⟨l, (List.mem_filter.mp hl).1, (List.mem_filter.mp hl).2⟩
      · intro _
        exact List.cons_ne_nil _ _
  · intro c hc
    unfold navChunks at hc
    dsimp only at hc
    split at hc
    · cases hc
    · simp only [List.mem_cons, List.not_mem_nil, or_false] at hc
      rw [hc]
      exact ⟨rfl, rfl⟩
  · unfold navLines
    rw [List.length_take]
    exact min_le_left _ _

/-- Witness for C8: a one-view file produces exactly the block chunk
immediately followed by its serialized screen card, and nothing else. -/
theorem build_chunks_order_witness :
    (build_chunks_for_file "struct A: View \x7b Button(\"hi\") \x7d" "A.swift").length = 2 ∧
    (build_chunks_for_file "struct A: View \x7b Button(\"hi\") \x7d" "A.swift").map Chunk.text
      = ["struct A: View \x7b Button(\"hi\") \x7d",
         "\x7b\"type\":\"SCREEN_CARD\",\"ui\":\"SwiftUI\",\"screen\":\"A\",\"path\":\"A.swift\",\"buttons\":[\"hi\"],\"accessibility_ids\":[],\"has_navigation_signals\":false\x7d"] := by
  have h := build_chunks_order "struct A: View \x7b Button(\"hi\") \x7d" "A.swift"
    (List.length_pos.mp (by decide))
  rw [h.1]
  exact ⟨rfl, rfl⟩

/-!  ## Claim C9: the test-type gate  -/

/-- C9.  For every generation request, a test-type whose lowercased and
trimmed value is not exactly `"unit"` or `"ui"` is rejected immediately —
`ValueError` in the generator, HTTP 400 in the endpoint — and never
silently defaulted; the two recognized values proceed (with the
normalized value), and whatever proceeds is one of the two. -/
theorem test_type_gate (s : String) :
    (¬ (normalize_test_type s = "unit" ∨ normalize_test_type s = "ui") →
      test_generator_gate s = .error "test_type must be unit or ui" ∧
      rag_endpoint_gate s = .error (400, "test_type must be unit or ui")) ∧
    ((normalize_test_type s = "unit" ∨ normalize_test_type s = "ui") →
      test_generator_gate s = .ok (normalize_test_type s) ∧
      rag_endpoint_gate s = .ok (normalize_test_type s)) ∧
    (∀ v, test_generator_gate s = .ok v → v = "unit" ∨ v = "ui") ∧
    (∀ v, rag_endpoint_gate s = .ok v → v = "unit" ∨ v = "ui") := by
  refine ⟨?_, ?_, ?_, ?_⟩
  · intro h
    unfold test_generator_gate rag_endpoint_gate
    rw [if_neg h, if_neg h]
    exact ⟨rfl, rfl⟩
  · intro h
    unfold test_generator_gate rag_endpoint_gate
    rw [if_pos h, if_pos h]
    exact ⟨rfl, rfl⟩
  · intro v hv
    unfold test_generator_gate at hv
    split at hv
    · rename_i h
      injection hv with hv
      subst hv
      exact h
    · cases hv
  · intro v hv
    unfold rag_endpoint_gate at hv
    split at hv
    · rename_i h
      injection hv with hv
      subst hv
      exact h
    · cases hv

/-- Witness for C9: `" UI "` normalizes to `"ui"` and proceeds;
`"integration"` is rejected by both gates. -/
theorem test_type_gate_witness :
    test_generator_gate " UI " = .ok "ui" ∧
    test_generator_gate "integration" = .error "test_type must be unit or ui" ∧
    rag_endpoint_gate "integration" = .error (400, "test_type must be unit or ui") := by
  have h1 := (test_type_gate " UI ").2.1 (by right; rfl)
  have h2 := (test_type_gate "integration").1 (by decide)
  exact ⟨h1.1.trans (by rfl), h2.1, h2.2⟩
